import Mathlib

/-!
Shallow embedding of the MachO/arm64 JIT-link core
(`llvm/lib/ExecutionEngine/JITLink/MachO_arm64.cpp`): the relocation
parser, the GOT-and-stubs builder and the fixup applier, together with
proofs about them.  Machine integers are modelled as `Nat`/`Int` with
explicit reduction modulo `2^32` / `2^64`; C++ `assert` statements are
modelled as no-ops (release semantics, `NDEBUG`), matching the shipped
library.  Fallible C++ code returning `Error`/`Expected` is modelled
with `Except`.
-/

namespace MachOArm64

/-! ## Machine arithmetic

`u64 x` is the value of the C++ `uint64_t` holding the integer `x`
(reduction modulo `2^64`); `u32` likewise for `uint32_t`.  `toInt64 n`
reinterprets a `uint64_t` bit pattern as `int64_t` (two's complement);
`wrap64 x` is the `int64_t` holding the integer `x`. -/

def u64 (x : Int) : Nat := (x % 2 ^ 64).toNat

def u32 (x : Int) : Nat := (x % 2 ^ 32).toNat

def toInt64 (n : Nat) : Int :=
  if n % 2 ^ 64 < 2 ^ 63 then ((n % 2 ^ 64 : Nat) : Int)
  else ((n % 2 ^ 64 : Nat) : Int) - 2 ^ 64

def wrap64 (x : Int) : Int := toInt64 (u64 x)

/-! ## Little-endian byte access

Block content is a list of bytes (each `< 256` in well-formed graphs).
`readLE c off n` reads the `n`-byte little-endian integer at `off`;
`writeLE c off v n` stores the low `n` bytes of `v` there.  Reads past
the end return zero bytes; writes past the end are dropped (the parser's
extent check rules both out on the paths we prove about). -/

def readLE (c : List Nat) (off : Nat) : Nat → Nat
  | 0 => 0
  | n + 1 => c.getD off 0 % 256 + 256 * readLE c (off + 1) n

def writeLE (c : List Nat) (off v : Nat) : Nat → List Nat
  | 0 => c
  | n + 1 => writeLE (c.set off (v % 256)) (off + 1) (v / 256) n

def read32LE (c : List Nat) (off : Nat) : Nat := readLE c off 4

def read64LE (c : List Nat) (off : Nat) : Nat := readLE c off 8

def write32LE (c : List Nat) (off v : Nat) : List Nat := writeLE c off v 4

def write64LE (c : List Nat) (off v : Nat) : List Nat := writeLE c off v 8

/-! ## Edge kinds and errors -/

/-- `MachOARM64RelocationKind` from `MachO_arm64.h`: the closed set of
edge kinds used by the MachO/arm64 backend. -/
inductive MachOARM64RelocationKind where
  | Branch26
  | Pointer32
  | Pointer64
  | Pointer64Anon
  | Page21
  | PageOffset12
  | GOTPage21
  | GOTPageOffset12
  | PointerToGOT
  | PairedAddend
  | LDRLiteral19
  | Delta32
  | Delta64
  | NegDelta32
  | NegDelta64
  deriving DecidableEq, Repr

open MachOARM64RelocationKind

/-- The errors produced by the embedded code.  Each constructor stands
for one `make_error<JITLinkError>(...)` site (carrying the data the C++
message formats in), except `readPastRelocEnd`, which marks the place
where `addRelocations` dereferences the end relocation iterator (the
C++ there has undefined behavior, there is no error object), and
`unreachableKind`, which marks `llvm_unreachable` switch arms. -/
inductive JITLinkError where
  /-- "Unsupported arm64 relocation: address=..., symbolnum=..., kind=...,
  pc_rel=..., extern=..., length=..." — carries the raw record fields. -/
  | unsupportedRelocation (r_address r_symbolnum r_type : Nat)
      (r_pcrel r_ext : Bool) (r_length : Nat)
  /-- "arm64 SUBTRACTOR without paired UNSIGNED relocation" -/
  | subtractorNoPairedUnsigned
  /-- "arm64 SUBTRACTOR and paired UNSIGNED point to different addresses" -/
  | subtractorPairAddressMismatch
  /-- "length of arm64 SUBTRACTOR and paired UNSIGNED reloc must match" -/
  | subtractorPairLengthMismatch
  /-- `findSymbolByIndex` failed -/
  | missingSymbolAtIndex (n : Nat)
  /-- `findSymbolByAddress` failed -/
  | missingSymbolAtAddress (a : Nat)
  /-- "SUBTRACTOR relocation must fix up either 'A' or 'B' ..." -/
  | subtractorMustFixAOrB
  /-- "Unpaired Addend reloc at ..." -/
  | unpairedAddend (fixupAddress : Nat)
  /-- "Invalid relocation pair: Addend + ..." -/
  | invalidAddendPairKind (k : MachOARM64RelocationKind)
  /-- "Paired relocation points at different target" -/
  | pairedAddressMismatch
  /-- "Relocation content extends past end of fixup block" -/
  | contentPastBlockEnd
  /-- "BRANCH26 target is not a B or BL instruction with a zero addend" -/
  | branch26BadTargetInstr
  /-- "PAGE21/GOTPAGE21 target is not an ADRP instruction with a zero addend" -/
  | page21BadTargetInstr
  /-- "GOTPAGEOFF12 target is not an LDR immediate instruction ..." -/
  | gotPageOffset12BadTargetInstr
  /-- "Branch26 target is not 32-bit aligned" -/
  | branch26Misaligned
  /-- `targetOutOfRangeError(B, E)`: "Relocation target out of range: ..." -/
  | targetOutOfRange (k : MachOARM64RelocationKind)
  /-- "PAGEOFF12 target is not aligned" -/
  | pageOffset12Misaligned
  /-- "LDR literal target is not 32-bit aligned" -/
  | ldrLiteralMisaligned
  /-- models the dereference of the end relocation iterator in
  `addRelocations` (C++ undefined behavior, a read past the end of the
  relocation stream) -/
  | readPastRelocEnd
  /-- models `llvm_unreachable` -/
  | unreachableKind
  deriving DecidableEq, Repr

/-! ## Relocation records and kind decoding -/

/-- `MachO::relocation_info`.  The bitfield widths of the record are
`r_address : 32`, `r_symbolnum : 24`, `r_pcrel : 1`, `r_length : 2`,
`r_extern : 1` (here `r_ext`), `r_type : 4`; the embedding uses plain
`Nat`/`Bool` fields, and nothing below depends on the width bounds. -/
structure relocation_info where
  r_address : Nat
  r_symbolnum : Nat
  r_pcrel : Bool
  r_length : Nat
  r_ext : Bool
  r_type : Nat
  deriving DecidableEq, Repr

def ARM64_RELOC_UNSIGNED : Nat := 0
def ARM64_RELOC_SUBTRACTOR : Nat := 1
def ARM64_RELOC_BRANCH26 : Nat := 2
def ARM64_RELOC_PAGE21 : Nat := 3
def ARM64_RELOC_PAGEOFF12 : Nat := 4
def ARM64_RELOC_GOT_LOAD_PAGE21 : Nat := 5
def ARM64_RELOC_GOT_LOAD_PAGEOFF12 : Nat := 6
def ARM64_RELOC_POINTER_TO_GOT : Nat := 7
def ARM64_RELOC_ADDEND : Nat := 10

/-- The `switch` of `getRelocationKind`: `some k` when one of the `return`
statements is reached, `none` when control falls through to the error at
the bottom (a `break` or an unmatched `case`). -/
def getRelocationKindCore (RI : relocation_info) :
    Option MachOARM64RelocationKind :=
  if RI.r_type = ARM64_RELOC_UNSIGNED then
    if !RI.r_pcrel then
      if RI.r_length = 3 then some (if RI.r_ext then Pointer64 else Pointer64Anon)
      else if RI.r_length = 2 then some Pointer32
      else none
    else none
  else if RI.r_type = ARM64_RELOC_SUBTRACTOR then
    if !RI.r_pcrel && RI.r_ext then
      if RI.r_length = 2 then some Delta32
      else if RI.r_length = 3 then some Delta64
      else none
    else none
  else if RI.r_type = ARM64_RELOC_BRANCH26 then
    if RI.r_pcrel && RI.r_ext && RI.r_length = 2 then some Branch26 else none
  else if RI.r_type = ARM64_RELOC_PAGE21 then
    if RI.r_pcrel && RI.r_ext && RI.r_length = 2 then some Page21 else none
  else if RI.r_type = ARM64_RELOC_PAGEOFF12 then
    if !RI.r_pcrel && RI.r_ext && RI.r_length = 2 then some PageOffset12 else none
  else if RI.r_type = ARM64_RELOC_GOT_LOAD_PAGE21 then
    if RI.r_pcrel && RI.r_ext && RI.r_length = 2 then some GOTPage21 else none
  else if RI.r_type = ARM64_RELOC_GOT_LOAD_PAGEOFF12 then
    if !RI.r_pcrel && RI.r_ext && RI.r_length = 2 then some GOTPageOffset12 else none
  else if RI.r_type = ARM64_RELOC_POINTER_TO_GOT then
    if RI.r_pcrel && RI.r_ext && RI.r_length = 2 then some PointerToGOT else none
  else if RI.r_type = ARM64_RELOC_ADDEND then
    if !RI.r_pcrel && !RI.r_ext && RI.r_length = 2 then some PairedAddend else none
  else none

/-- `getRelocationKind` (MachO_arm64.cpp:45-105). -/
def getRelocationKind (RI : relocation_info) :
    Except JITLinkError MachOARM64RelocationKind :=
  match getRelocationKindCore RI with
  | some k => .ok k
  | none => .error (.unsupportedRelocation RI.r_address RI.r_symbolnum
      RI.r_type RI.r_pcrel RI.r_ext RI.r_length)

/-- The decoding table of spec §6.1, written row by row from the spec's
words (`*` in the `extern` column of the `Pointer32` row means either
value); used to state the refinement claim C1 against
`getRelocationKind`. -/
def specRelocationTable (RI : relocation_info) :
    Option MachOARM64RelocationKind :=
  if RI.r_type = 0 ∧ RI.r_pcrel = false ∧ RI.r_ext = true ∧ RI.r_length = 3 then
    some Pointer64
  else if RI.r_type = 0 ∧ RI.r_pcrel = false ∧ RI.r_ext = false ∧ RI.r_length = 3 then
    some Pointer64Anon
  else if RI.r_type = 0 ∧ RI.r_pcrel = false ∧ RI.r_length = 2 then
    some Pointer32
  else if RI.r_type = 1 ∧ RI.r_pcrel = false ∧ RI.r_ext = true ∧ RI.r_length = 2 then
    some Delta32
  else if RI.r_type = 1 ∧ RI.r_pcrel = false ∧ RI.r_ext = true ∧ RI.r_length = 3 then
    some Delta64
  else if RI.r_type = 2 ∧ RI.r_pcrel = true ∧ RI.r_ext = true ∧ RI.r_length = 2 then
    some Branch26
  else if RI.r_type = 3 ∧ RI.r_pcrel = true ∧ RI.r_ext = true ∧ RI.r_length = 2 then
    some Page21
  else if RI.r_type = 4 ∧ RI.r_pcrel = false ∧ RI.r_ext = true ∧ RI.r_length = 2 then
    some PageOffset12
  else if RI.r_type = 5 ∧ RI.r_pcrel = true ∧ RI.r_ext = true ∧ RI.r_length = 2 then
    some GOTPage21
  else if RI.r_type = 6 ∧ RI.r_pcrel = false ∧ RI.r_ext = true ∧ RI.r_length = 2 then
    some GOTPageOffset12
  else if RI.r_type = 7 ∧ RI.r_pcrel = true ∧ RI.r_ext = true ∧ RI.r_length = 2 then
    some PointerToGOT
  else if RI.r_type = 10 ∧ RI.r_pcrel = false ∧ RI.r_ext = false ∧ RI.r_length = 2 then
    some PairedAddend
  else none

theorem getRelocationKindCore_eq_specTable (RI : relocation_info) :
    getRelocationKindCore RI = specRelocationTable RI := by
  obtain ⟨a, n, p, l, e, t⟩ := RI
  cases p <;> cases e <;>
    rcases l with _ | _ | _ | _ | l <;>
      rcases t with _ | _ | _ | _ | _ | _ | _ | _ | _ | _ | _ | t <;> rfl

/-- **C1.** The parser's relocation-kind decoder agrees with the table of
spec §6.1 on every relocation record: it returns the table's kind for
quadruples in the table, and fails with the BadRelocation error carrying
the raw record fields for every quadruple outside the table. -/
theorem relocation_kind_matches_spec_table (RI : relocation_info) :
    getRelocationKind RI =
      match specRelocationTable RI with
      | some k => .ok k
      | none => .error (.unsupportedRelocation RI.r_address RI.r_symbolnum
          RI.r_type RI.r_pcrel RI.r_ext RI.r_length) := by
  rw [getRelocationKind, getRelocationKindCore_eq_specTable]

/-! ## Symbols and the SUBTRACTOR/UNSIGNED pair parser

A graph symbol as the relocation parser uses it: its current (parse-time)
address and the identity of its addressable (its block for defined
symbols, a non-block addressable for external ones).  The C++ compares
addressables by object identity (`&BlockToFix == &Sym.getAddressable()`);
the embedding compares ids.  Symbol lookup (`findSymbolByIndex`,
`findSymbolByAddress`, provided by the generic `MachOLinkGraphBuilder`
base, which is outside this file's source) is passed in as `Nat → Option
Sym` environment functions. -/

structure Sym where
  address : Nat
  addressableId : Nat
  deriving DecidableEq, Repr

/-- `parsePairRelocation` (MachO_arm64.cpp:121-199).  `FixupContent` is
the byte span starting at the fixup; `UnsignedRel?` is the relocation
record after the SUBTRACTOR (`none` when the SUBTRACTOR is the last
record, i.e. `UnsignedRelItr == RelEnd`).  On success it returns the
edge kind, the target symbol and the (uint64) addend. -/
def parsePairRelocation
    (findSymbolByIndex : Nat → Option Sym)
    (findSymbolByAddress : Nat → Option Sym)
    (blockToFixId : Nat)
    (SubRI : relocation_info)
    (FixupAddress : Nat)
    (FixupContent : List Nat)
    (UnsignedRel? : Option relocation_info) :
    Except JITLinkError (MachOARM64RelocationKind × Sym × Nat) :=
  match UnsignedRel? with
  | none => .error .subtractorNoPairedUnsigned
  | some UnsignedRI =>
    if SubRI.r_address ≠ UnsignedRI.r_address then
      .error .subtractorPairAddressMismatch
    else if SubRI.r_length ≠ UnsignedRI.r_length then
      .error .subtractorPairLengthMismatch
    else
      match findSymbolByIndex SubRI.r_symbolnum with
      | none => .error (.missingSymbolAtIndex SubRI.r_symbolnum)
      | some FromSymbol =>
        let FixupValue0 : Nat :=
          if SubRI.r_length = 3 then read64LE FixupContent 0
          else read32LE FixupContent 0
        let toRes : Except JITLinkError (Sym × Nat) :=
          if UnsignedRI.r_ext then
            match findSymbolByIndex UnsignedRI.r_symbolnum with
            | none => .error (.missingSymbolAtIndex UnsignedRI.r_symbolnum)
            | some s => .ok (s, FixupValue0)
          else
            match findSymbolByAddress FixupValue0 with
            | none => .error (.missingSymbolAtAddress FixupValue0)
            | some s => .ok (s, u64 ((FixupValue0 : Int) - s.address))
        match toRes with
        | .error e => .error e
        | .ok (ToSymbol, FixupValue) =>
          if blockToFixId = FromSymbol.addressableId then
            .ok ((if SubRI.r_length = 3 then Delta64 else Delta32), ToSymbol,
              u64 ((FixupValue : Int) + ((FixupAddress : Int) - FromSymbol.address)))
          else if blockToFixId = ToSymbol.addressableId then
            .ok ((if SubRI.r_length = 3 then NegDelta64 else NegDelta32), FromSymbol,
              u64 ((FixupValue : Int) - ((FixupAddress : Int) - ToSymbol.address)))
          else .error .subtractorMustFixAOrB

/-! ## The fixup applier -/

/-- `getPageOffset12Shift` (MachO_arm64.cpp:519-539). -/
def getPageOffset12Shift (Instr : Nat) : Nat :=
  if Instr &&& 0x3ffffc00 = 0x39400000 then Instr >>> 30
  else if Instr &&& 0x3ffffc00 = 0x3d400000 then Instr >>> 30
  else if Instr &&& 0xfffffc00 = 0x3dc00000 then 4
  else 0

/-- `applyFixup` (MachO_arm64.cpp:541-667).  The applier reads only the
target symbol's final address, the block's final address, the edge's
offset and addend, and the block's working memory, so those are the
parameters; it returns the patched working memory or the error.  C++
`assert` statements (release no-ops) are not modelled as failures;
`llvm_unreachable` arms are `unreachableKind`. -/
def applyFixup (BlockAddress : Nat) (Content : List Nat) (Offset : Nat)
    (Kind : MachOARM64RelocationKind) (TargetAddress : Nat) (Addend : Int) :
    Except JITLinkError (List Nat) :=
  let FixupAddress : Nat := BlockAddress + Offset
  match Kind with
  | Branch26 =>
    let Value : Int := wrap64 ((TargetAddress : Int) - FixupAddress + Addend)
    if u64 Value % 4 ≠ 0 then .error .branch26Misaligned
    else if Value < -(2 ^ 27) ∨ Value > 2 ^ 27 - 1 then
      .error (.targetOutOfRange Branch26)
    else
      let RawInstr := read32LE Content Offset
      let Imm := (u32 Value &&& (2 ^ 28 - 1)) >>> 2
      .ok (write32LE Content Offset (RawInstr ||| Imm))
  | Pointer32 =>
    let Value : Nat := u64 ((TargetAddress : Int) + Addend)
    if Value > 0xffffffff then .error (.targetOutOfRange Pointer32)
    else .ok (write32LE Content Offset Value)
  | Pointer64 =>
    .ok (write64LE Content Offset (u64 ((TargetAddress : Int) + Addend)))
  | Page21 | GOTPage21 =>
    let TargetPage := TargetAddress - TargetAddress % 4096
    let PCPage := BlockAddress - BlockAddress % 4096
    let PageDelta : Int := toInt64 (u64 ((TargetPage : Int) - PCPage))
    if PageDelta < -(2 ^ 30) ∨ PageDelta > 2 ^ 30 - 1 then
      .error (.targetOutOfRange Kind)
    else
      let RawInstr := read32LE Content Offset
      let ImmLo := (u64 PageDelta >>> 12) &&& 0x3
      let ImmHi := (u64 PageDelta >>> 14) &&& 0x7ffff
      .ok (write32LE Content Offset (RawInstr ||| (ImmLo <<< 29) ||| (ImmHi <<< 5)))
  | PageOffset12 =>
    let TargetOffset := TargetAddress % 4096
    let RawInstr := read32LE Content Offset
    let ImmShift := getPageOffset12Shift RawInstr
    if TargetOffset &&& ((1 <<< ImmShift) - 1) ≠ 0 then
      .error .pageOffset12Misaligned
    else
      .ok (write32LE Content Offset (RawInstr ||| ((TargetOffset >>> ImmShift) <<< 10)))
  | GOTPageOffset12 =>
    let TargetOffset := TargetAddress % 4096
    let RawInstr := read32LE Content Offset
    .ok (write32LE Content Offset (RawInstr ||| (TargetOffset <<< 10)))
  | LDRLiteral19 =>
    let RawInstr := read32LE Content Offset
    let Delta : Int := toInt64 (u64 ((TargetAddress : Int) - FixupAddress))
    if u64 Delta % 4 ≠ 0 then .error .ldrLiteralMisaligned
    else if Delta < -(2 ^ 20) ∨ Delta > 2 ^ 20 - 1 then
      .error (.targetOutOfRange LDRLiteral19)
    else
      let EncodedImm := ((u32 Delta >>> 2) <<< 5) % 2 ^ 32
      .ok (write32LE Content Offset (RawInstr ||| EncodedImm))
  | Delta32 | Delta64 | NegDelta32 | NegDelta64 =>
    let Value : Int :=
      if Kind = Delta32 ∨ Kind = Delta64 then
        wrap64 ((TargetAddress : Int) - FixupAddress + Addend)
      else
        wrap64 ((FixupAddress : Int) - TargetAddress + Addend)
    if Kind = Delta32 ∨ Kind = NegDelta32 then
      if Value < -(2 ^ 31) ∨ Value > 2 ^ 31 - 1 then
        .error (.targetOutOfRange Kind)
      else .ok (write32LE Content Offset (u32 Value))
    else .ok (write64LE Content Offset (u64 Value))
  | Pointer64Anon | PointerToGOT | PairedAddend => .error .unreachableKind

/-! ## Arithmetic facts about the machine-integer model -/

theorem u64_cast (x : Int) : ((u64 x : Nat) : Int) = x % 2 ^ 64 := by
  unfold u64
  omega

theorem u64_lt (x : Int) : u64 x < 2 ^ 64 := by
  unfold u64
  omega

theorem u32_cast (x : Int) : ((u32 x : Nat) : Int) = x % 2 ^ 32 := by
  unfold u32
  omega

theorem u32_lt (x : Int) : u32 x < 2 ^ 32 := by
  unfold u32
  omega

theorem toInt64_emod (n : Nat) : toInt64 n % 2 ^ 64 = (n : Int) % 2 ^ 64 := by
  unfold toInt64
  split_ifs with h <;> push_cast <;> omega

theorem toInt64_bounds (n : Nat) : -(2 ^ 63) ≤ toInt64 n ∧ toInt64 n < 2 ^ 63 := by
  unfold toInt64
  split_ifs with h <;> constructor <;> push_cast <;> omega

theorem wrap64_emod (x : Int) : wrap64 x % 2 ^ 64 = x % 2 ^ 64 := by
  unfold wrap64
  have h1 := toInt64_emod (u64 x)
  have h2 := u64_cast x
  omega

theorem wrap64_bounds (x : Int) : -(2 ^ 63) ≤ wrap64 x ∧ wrap64 x < 2 ^ 63 :=
  toInt64_bounds _

theorem wrap64_eq_self {x : Int} (h1 : -(2 ^ 63) ≤ x) (h2 : x < 2 ^ 63) :
    wrap64 x = x := by
  have he := wrap64_emod x
  have hb := wrap64_bounds x
  omega

theorem u32_wrap64 (x : Int) : u32 (wrap64 x) = u32 x := by
  unfold u32
  have h := wrap64_emod x
  omega

theorem u64_wrap64 (x : Int) : u64 (wrap64 x) = u64 x := by
  unfold u64
  have h := wrap64_emod x
  omega

/-! ## Facts about little-endian byte access -/

theorem readLE_lt (c : List Nat) (off : Nat) : ∀ n, readLE c off n < 256 ^ n := by
  intro n
  induction n generalizing off with
  | zero => simp [readLE]
  | succ n ih =>
    have h1 : c.getD off 0 % 256 < 256 := Nat.mod_lt _ (by norm_num)
    have h2 := ih (off + 1)
    simp only [readLE, pow_succ]
    calc c.getD off 0 % 256 + 256 * readLE c (off + 1) n
        < 256 + 256 * readLE c (off + 1) n := by omega
      _ ≤ 256 * 256 ^ n := by nlinarith
      _ = 256 ^ n * 256 := by ring

theorem length_writeLE (v : Nat) : ∀ (n : Nat) (c : List Nat) (off : Nat),
    (writeLE c off v n).length = c.length := by
  intro n
  induction n generalizing v with
  | zero => intro c off; rfl
  | succ n ih =>
    intro c off
    simp only [writeLE]
    rw [ih]
    exact c.length_set off (v % 256)

theorem writeLE_getD_of_lt (v : Nat) : ∀ (n : Nat) (c : List Nat) (off i : Nat),
    i < off → (writeLE c off v n).getD i 0 = c.getD i 0 := by
  intro n
  induction n generalizing v with
  | zero => intro c off i _; rfl
  | succ n ih =>
    intro c off i h
    simp only [writeLE]
    rw [ih _ _ _ _ (by omega)]
    simp only [List.getD_eq_getElem?_getD]
    rw [List.getElem?_set_ne (by omega)]

theorem readLE_writeLE (v : Nat) : ∀ (n : Nat) (c : List Nat) (off : Nat),
    off + n ≤ c.length →
    readLE (writeLE c off v n) off n = v % 256 ^ n := by
  intro n
  induction n generalizing v with
  | zero => intro c off _; simp [readLE, writeLE, Nat.mod_one]
  | succ n ih =>
    intro c off h
    simp only [writeLE, readLE]
    have hoff : off < c.length := by omega
    have hset : (writeLE (c.set off (v % 256)) (off + 1) (v / 256) n).getD off 0
        = v % 256 := by
      rw [writeLE_getD_of_lt _ _ _ _ _ (by omega)]
      simp only [List.getD_eq_getElem?_getD]
      rw [List.getElem?_set_self (by simpa using hoff)]
      rfl
    have hlen : off + 1 + n ≤ (c.set off (v % 256)).length := by
      rw [List.length_set]; omega
    rw [hset, ih (v / 256) _ _ hlen]
    have hm : v % (256 * 256 ^ n) = v % 256 + 256 * (v / 256 % 256 ^ n) := Nat.mod_mul
    have hp : (256 : Nat) ^ (n + 1) = 256 * 256 ^ n := by ring
    rw [Nat.mod_mod_of_dvd v (dvd_refl 256), hp, hm]

theorem read32LE_write32LE (c : List Nat) (off v : Nat) (h : off + 4 ≤ c.length) :
    read32LE (write32LE c off v) off = v % 2 ^ 32 := by
  have := readLE_writeLE v 4 c off h
  simpa [read32LE, write32LE] using this

theorem read64LE_write64LE (c : List Nat) (off v : Nat) (h : off + 8 ≤ c.length) :
    read64LE (write64LE c off v) off = v % 2 ^ 64 := by
  have := readLE_writeLE v 8 c off h
  simpa [read64LE, write64LE] using this

/-! ## Claim theorems about the parser pair logic and the applier -/

/-- **C2.** `parsePairRelocation`, on a SUBTRACTOR record paired with a
following UNSIGNED record of equal `r_address` and equal `r_length`,
with `FromSymbol` found by the SUBTRACTOR's symbol index and `ToSymbol`
found by the UNSIGNED's symbol index when it is extern or else by the
address read from the fixup bytes (subtracting `ToSymbol`'s address
from the read value), produces: a `Delta32`/`Delta64` edge targeting
`ToSymbol` with (uint64) addend `FixupValue + (FixupAddress -
FromSymbol.address)` when the fixup block is `FromSymbol`'s
addressable; else a `NegDelta32`/`NegDelta64` edge targeting
`FromSymbol` with addend `FixupValue - (FixupAddress -
ToSymbol.address)` when it is `ToSymbol`'s addressable; else the
BadRelocation failure. -/
theorem parsePairRelocation_cases
    (findSymbolByIndex findSymbolByAddress : Nat → Option Sym)
    (blockToFixId : Nat) (SubRI UnsignedRI : relocation_info)
    (FixupAddress : Nat) (FixupContent : List Nat)
    (FromSymbol ToSymbol : Sym) (FixupValue : Nat)
    (hAddr : SubRI.r_address = UnsignedRI.r_address)
    (hLen : SubRI.r_length = UnsignedRI.r_length)
    (hFrom : findSymbolByIndex SubRI.r_symbolnum = some FromSymbol)
    (hTo : if UnsignedRI.r_ext then
        findSymbolByIndex UnsignedRI.r_symbolnum = some ToSymbol
      else
        findSymbolByAddress (if SubRI.r_length = 3 then read64LE FixupContent 0
          else read32LE FixupContent 0) = some ToSymbol)
    (hFV : FixupValue =
      (if UnsignedRI.r_ext then
        (if SubRI.r_length = 3 then read64LE FixupContent 0
          else read32LE FixupContent 0)
      else u64 (((if SubRI.r_length = 3 then read64LE FixupContent 0
          else read32LE FixupContent 0 : Nat) : Int) - ToSymbol.address))) :
    (blockToFixId = FromSymbol.addressableId →
      parsePairRelocation findSymbolByIndex findSymbolByAddress blockToFixId
          SubRI FixupAddress FixupContent (some UnsignedRI) =
        .ok ((if SubRI.r_length = 3 then Delta64 else Delta32), ToSymbol,
          u64 ((FixupValue : Int) + ((FixupAddress : Int) - FromSymbol.address)))) ∧
    (blockToFixId ≠ FromSymbol.addressableId →
      blockToFixId = ToSymbol.addressableId →
      parsePairRelocation findSymbolByIndex findSymbolByAddress blockToFixId
          SubRI FixupAddress FixupContent (some UnsignedRI) =
        .ok ((if SubRI.r_length = 3 then NegDelta64 else NegDelta32), FromSymbol,
          u64 ((FixupValue : Int) - ((FixupAddress : Int) - ToSymbol.address)))) ∧
    (blockToFixId ≠ FromSymbol.addressableId →
      blockToFixId ≠ ToSymbol.addressableId →
      parsePairRelocation findSymbolByIndex findSymbolByAddress blockToFixId
          SubRI FixupAddress FixupContent (some UnsignedRI) =
        .error .subtractorMustFixAOrB) := by
  rw [hLen] at hTo hFV
  unfold parsePairRelocation
  rcases hext : UnsignedRI.r_ext with _ | _
  · rw [hext] at hTo hFV
    simp only [Bool.false_eq_true, if_false] at hTo hFV
    simp [hAddr, hLen, hFrom, hext, hTo]
    refine ⟨fun h1 => by simp [h1, hFV],
      fun h1 h2 => by rw [h2] at h1; simp [h1, h2, hFV],
      fun h1 h2 => by simp [h1, h2]⟩
  · rw [hext] at hTo hFV
    simp only [if_true] at hTo hFV
    simp [hAddr, hLen, hFrom, hext, hTo]
    refine ⟨fun h1 => by simp [h1, hFV],
      fun h1 h2 => by rw [h2] at h1; simp [h1, h2, hFV],
      fun h1 h2 => by simp [h1, h2]⟩

theorem applyFixup_negDelta32_eq (BlockAddress : Nat) (Content : List Nat)
    (Offset TargetAddress : Nat) (Addend : Int) :
    applyFixup BlockAddress Content Offset NegDelta32 TargetAddress Addend =
      (if wrap64 (((BlockAddress + Offset : Nat) : Int) - TargetAddress + Addend)
            < -(2 ^ 31) ∨
          wrap64 (((BlockAddress + Offset : Nat) : Int) - TargetAddress + Addend)
            > 2 ^ 31 - 1 then
        .error (.targetOutOfRange NegDelta32)
      else .ok (write32LE Content Offset
        (u32 (wrap64 (((BlockAddress + Offset : Nat) : Int) - TargetAddress
          + Addend))))) := rfl

theorem applyFixup_negDelta64_eq (BlockAddress : Nat) (Content : List Nat)
    (Offset TargetAddress : Nat) (Addend : Int) :
    applyFixup BlockAddress Content Offset NegDelta64 TargetAddress Addend =
      .ok (write64LE Content Offset
        (u64 (wrap64 (((BlockAddress + Offset : Nat) : Int) - TargetAddress
          + Addend)))) := rfl

/-- **C3.** Round-trip for a SUBTRACTOR/UNSIGNED pair whose symbol `B`
lies in the fixup block (and whose stored fixup value is zero, as in the
spec's scenario): parsing emits a `NegDelta32`/`NegDelta64` edge
targeting `A`, and applying the fixup with the final addresses patches
the fixup bytes with `B.address - A.address` in 32- or 64-bit
little-endian two's complement according to `r_length`, for arbitrary
final addresses of `A` and `B` within the representable range
(`hShift` says the fixup keeps its parse-time offset from `B`, which
holds because both live in the block being fixed). -/
theorem subtractor_unsigned_roundtrip
    (findSymbolByIndex findSymbolByAddress : Nat → Option Sym)
    (blockToFixId : Nat) (SubRI UnsignedRI : relocation_info)
    (FixupAddress : Nat) (FixupContent : List Nat)
    (A B : Sym)
    (finalFixupAddress finalAAddress finalBAddress : Nat)
    (hL : SubRI.r_length = 2 ∨ SubRI.r_length = 3)
    (hAddr : SubRI.r_address = UnsignedRI.r_address)
    (hLen : SubRI.r_length = UnsignedRI.r_length)
    (hFrom : findSymbolByIndex SubRI.r_symbolnum = some A)
    (hExtTo : UnsignedRI.r_ext = true)
    (hTo : findSymbolByIndex UnsignedRI.r_symbolnum = some B)
    (hBblk : B.addressableId = blockToFixId)
    (hAblk : A.addressableId ≠ blockToFixId)
    (hZero : (if SubRI.r_length = 3 then read64LE FixupContent 0
      else read32LE FixupContent 0) = 0)
    (hShift : (finalFixupAddress : Int) - finalBAddress =
      (FixupAddress : Int) - B.address)
    (_hA1 : FixupAddress < 2 ^ 62) (_hA2 : B.address < 2 ^ 62)
    (hA3 : finalFixupAddress < 2 ^ 62) (hA4 : finalBAddress < 2 ^ 62)
    (_hA5 : finalAAddress < 2 ^ 62)
    (hRange : if SubRI.r_length = 3 then
        -(2 ^ 62) ≤ (finalBAddress : Int) - finalAAddress ∧
          (finalBAddress : Int) - finalAAddress ≤ 2 ^ 62
      else
        -(2 ^ 31) ≤ (finalBAddress : Int) - finalAAddress ∧
          (finalBAddress : Int) - finalAAddress ≤ 2 ^ 31 - 1)
    (hLen4 : (if SubRI.r_length = 3 then 8 else 4) ≤ FixupContent.length) :
    ∃ a c2,
      parsePairRelocation findSymbolByIndex findSymbolByAddress blockToFixId
          SubRI FixupAddress FixupContent (some UnsignedRI) =
        .ok ((if SubRI.r_length = 3 then NegDelta64 else NegDelta32), A, a) ∧
      applyFixup finalFixupAddress FixupContent 0
          (if SubRI.r_length = 3 then NegDelta64 else NegDelta32)
          finalAAddress (toInt64 a) = .ok c2 ∧
      readLE c2 0 (if SubRI.r_length = 3 then 8 else 4) =
        ((((finalBAddress : Int) - finalAAddress) %
          2 ^ (if SubRI.r_length = 3 then 64 else 32)).toNat) := by
  have hTo2 : if UnsignedRI.r_ext then
      findSymbolByIndex UnsignedRI.r_symbolnum = some B
    else findSymbolByAddress (if SubRI.r_length = 3 then read64LE FixupContent 0
      else read32LE FixupContent 0) = some B := by
    rw [hExtTo]
    simpa using hTo
  have hFV2 : (0 : Nat) =
      (if UnsignedRI.r_ext then
        (if SubRI.r_length = 3 then read64LE FixupContent 0
          else read32LE FixupContent 0)
      else u64 (((if SubRI.r_length = 3 then read64LE FixupContent 0
          else read32LE FixupContent 0 : Nat) : Int) - B.address)) := by
    rw [hExtTo]
    simpa using hZero.symm
  have hpc := (parsePairRelocation_cases findSymbolByIndex findSymbolByAddress
    blockToFixId SubRI UnsignedRI FixupAddress FixupContent A B 0
    hAddr hLen hFrom hTo2 hFV2).2.1 (fun h => hAblk h.symm) hBblk.symm
  have hv0 : toInt64 (u64 ((B.address : Int) - FixupAddress)) =
      (B.address : Int) - FixupAddress := by
    show wrap64 _ = _
    exact wrap64_eq_self (by omega) (by omega)
  have hval : wrap64 ((finalFixupAddress : Int) - finalAAddress +
      toInt64 (u64 ((B.address : Int) - FixupAddress))) =
      (finalBAddress : Int) - finalAAddress := by
    rw [hv0]
    have harg : (finalFixupAddress : Int) - finalAAddress +
        ((B.address : Int) - FixupAddress) =
        (finalBAddress : Int) - finalAAddress := by omega
    rw [harg]
    rcases hL with hl | hl <;> rw [hl] at hRange <;> simp at hRange <;>
      exact wrap64_eq_self (by omega) (by omega)
  refine ⟨u64 ((B.address : Int) - FixupAddress),
    writeLE FixupContent 0
      (((((finalBAddress : Int) - finalAAddress) %
        2 ^ (if SubRI.r_length = 3 then 64 else 32)).toNat))
      (if SubRI.r_length = 3 then 8 else 4), ?_, ?_, ?_⟩
  · have harg2 : ((0 : Nat) : Int) - ((FixupAddress : Int) - B.address) =
        (B.address : Int) - FixupAddress := by omega
    rw [hpc, harg2]
  · rcases hL with hl | hl
    · rw [hl]
      norm_num
      rw [applyFixup_negDelta32_eq]
      simp only [Nat.add_zero]
      rw [hval]
      rw [if_neg (by rw [hl] at hRange; simp at hRange; omega)]
      rfl
    · rw [hl]
      norm_num
      rw [applyFixup_negDelta64_eq]
      simp only [Nat.add_zero]
      rw [hval]
      rfl
  · rcases hL with hl | hl <;> rw [hl] <;> norm_num
    · rw [readLE_writeLE _ 4 _ 0 (by rw [hl] at hLen4; simpa using hLen4)]
      have h1 : (0 : Int) ≤ ((finalBAddress : Int) - finalAAddress) % 2 ^ 32 :=
        Int.emod_nonneg _ (by norm_num)
      have h2 : ((finalBAddress : Int) - finalAAddress) % 2 ^ 32 < 2 ^ 32 :=
        Int.emod_lt_of_pos _ (by norm_num)
      omega
    · rw [readLE_writeLE _ 8 _ 0 (by rw [hl] at hLen4; simpa using hLen4)]
      have h1 : (0 : Int) ≤ ((finalBAddress : Int) - finalAAddress) % 2 ^ 64 :=
        Int.emod_nonneg _ (by norm_num)
      have h2 : ((finalBAddress : Int) - finalAAddress) % 2 ^ 64 < 2 ^ 64 :=
        Int.emod_lt_of_pos _ (by norm_num)
      omega

/-- Witness for C2 at the spec's scenario 5: symbols `A` (index 1, address
`0x1000`, addressable 100) and `B` (index 2, address `0x1040`, addressable
7 = the fixup block), SUBTRACTOR/UNSIGNED pair at `0x1040` with zeroed
content: the parser emits `(NegDelta32, A, 0)`. -/
theorem parsePairRelocation_cases_witness :
    parsePairRelocation
      (fun n => if n = 1 then some ⟨0x1000, 100⟩
        else if n = 2 then some ⟨0x1040, 7⟩ else none)
      (fun _ => none) 7 ⟨0x40, 1, false, 2, true, 1⟩ 0x1040 [0, 0, 0, 0]
      (some ⟨0x40, 2, false, 2, true, 0⟩) =
    .ok (NegDelta32, ⟨0x1000, 100⟩, 0) := by
  have h := (parsePairRelocation_cases
    (fun n => if n = 1 then some ⟨0x1000, 100⟩
      else if n = 2 then some ⟨0x1040, 7⟩ else none)
    (fun _ => none) 7 ⟨0x40, 1, false, 2, true, 1⟩ ⟨0x40, 2, false, 2, true, 0⟩
    0x1040 [0, 0, 0, 0] ⟨0x1000, 100⟩ ⟨0x1040, 7⟩ 0
    rfl rfl rfl (by decide) (by decide)).2.1 (by decide) rfl
  simpa [u64] using h

/-- Witness for C3: the pair of scenario 5 parsed at block address
`0x1040`, then fixed up after the block moves to `0x2040` and `A` is
assigned `0x3000`: the patched bytes hold `0x2040 - 0x3000` as 32-bit
two's complement. -/
theorem subtractor_unsigned_roundtrip_witness :
    ∃ a c2,
      parsePairRelocation
        (fun n => if n = 1 then some ⟨0x1000, 100⟩
          else if n = 2 then some ⟨0x1040, 7⟩ else none)
        (fun _ => none) 7 ⟨0x40, 1, false, 2, true, 1⟩ 0x1040 [0, 0, 0, 0]
        (some ⟨0x40, 2, false, 2, true, 0⟩) =
      .ok (NegDelta32, ⟨0x1000, 100⟩, a) ∧
      applyFixup 0x2040 [0, 0, 0, 0] 0 NegDelta32 0x3000 (toInt64 a) = .ok c2 ∧
      readLE c2 0 4 = (((0x2040 : Int) - 0x3000) % 2 ^ 32).toNat :=
  subtractor_unsigned_roundtrip
    (fun n => if n = 1 then some ⟨0x1000, 100⟩
      else if n = 2 then some ⟨0x1040, 7⟩ else none)
    (fun _ => none) 7 ⟨0x40, 1, false, 2, true, 1⟩ ⟨0x40, 2, false, 2, true, 0⟩
    0x1040 [0, 0, 0, 0] ⟨0x1000, 100⟩ ⟨0x1040, 7⟩ 0x2040 0x3000 0x2040
    (Or.inl rfl) rfl rfl rfl rfl rfl rfl (by decide) (by decide) (by decide)
    (by decide) (by decide) (by decide) (by decide) (by decide) (by norm_num)
    (by norm_num)

/-! ## The per-section relocation loop of `addRelocations` -/

/-- The block found for a fixup (`findSymbolByAddress(FixupAddress)` then
`getBlock()`): identity, current address, content bytes. -/
structure BlockRef where
  blockId : Nat
  address : Nat
  content : List Nat
  deriving DecidableEq, Repr

/-- One edge as `BlockToFix->addEdge(Kind, Offset, TargetSymbol, Addend)`
records it (the addend is the raw uint64 the C++ passes). -/
structure ParsedEdge where
  blockId : Nat
  kind : MachOARM64RelocationKind
  offset : Nat
  target : Sym
  addend : Nat
  deriving DecidableEq, Repr

/-- The per-kind `switch` at the bottom of `addRelocations`
(MachO_arm64.cpp:284-376).  `Addend0` is the addend accumulated before
the switch (0, or the 24-bit value of a preceding ADDEND record);
`nextRel` is the record after the current one, consumed only by the
SUBTRACTOR case.  Returns the final kind, target, addend and whether the
paired record was consumed. -/
def relocSwitch (findSymbolByIndex findSymbolByAddress : Nat → Option Sym)
    (blockToFixId : Nat) (FixupAddress : Nat) (FixupContent : List Nat)
    (Kind : MachOARM64RelocationKind) (RI : relocation_info) (Addend0 : Nat)
    (nextRel : Option relocation_info) :
    Except JITLinkError (MachOARM64RelocationKind × Sym × Nat × Bool) :=
  match Kind with
  | Branch26 =>
    match findSymbolByIndex RI.r_symbolnum with
    | none => .error (.missingSymbolAtIndex RI.r_symbolnum)
    | some TargetSymbol =>
      if read32LE FixupContent 0 &&& 0x7fffffff ≠ 0x14000000 then
        .error .branch26BadTargetInstr
      else .ok (Branch26, TargetSymbol, Addend0, false)
  | Pointer32 =>
    match findSymbolByIndex RI.r_symbolnum with
    | none => .error (.missingSymbolAtIndex RI.r_symbolnum)
    | some TargetSymbol => .ok (Pointer32, TargetSymbol, read32LE FixupContent 0, false)
  | Pointer64 =>
    match findSymbolByIndex RI.r_symbolnum with
    | none => .error (.missingSymbolAtIndex RI.r_symbolnum)
    | some TargetSymbol => .ok (Pointer64, TargetSymbol, read64LE FixupContent 0, false)
  | Pointer64Anon =>
    match findSymbolByAddress (read64LE FixupContent 0) with
    | none => .error (.missingSymbolAtAddress (read64LE FixupContent 0))
    | some TargetSymbol =>
      .ok (Pointer64Anon, TargetSymbol,
        u64 ((read64LE FixupContent 0 : Int) - TargetSymbol.address), false)
  | Page21 =>
    match findSymbolByIndex RI.r_symbolnum with
    | none => .error (.missingSymbolAtIndex RI.r_symbolnum)
    | some TargetSymbol =>
      if read32LE FixupContent 0 &&& 0xffffffe0 ≠ 0x90000000 then
        .error .page21BadTargetInstr
      else .ok (Page21, TargetSymbol, Addend0, false)
  | GOTPage21 =>
    match findSymbolByIndex RI.r_symbolnum with
    | none => .error (.missingSymbolAtIndex RI.r_symbolnum)
    | some TargetSymbol =>
      if read32LE FixupContent 0 &&& 0xffffffe0 ≠ 0x90000000 then
        .error .page21BadTargetInstr
      else .ok (GOTPage21, TargetSymbol, Addend0, false)
  | PageOffset12 =>
    match findSymbolByIndex RI.r_symbolnum with
    | none => .error (.missingSymbolAtIndex RI.r_symbolnum)
    | some TargetSymbol => .ok (PageOffset12, TargetSymbol, Addend0, false)
  | GOTPageOffset12 =>
    match findSymbolByIndex RI.r_symbolnum with
    | none => .error (.missingSymbolAtIndex RI.r_symbolnum)
    | some TargetSymbol =>
      if read32LE FixupContent 0 &&& 0xfffffc00 ≠ 0xf9400000 then
        .error .gotPageOffset12BadTargetInstr
      else .ok (GOTPageOffset12, TargetSymbol, Addend0, false)
  | PointerToGOT =>
    match findSymbolByIndex RI.r_symbolnum with
    | none => .error (.missingSymbolAtIndex RI.r_symbolnum)
    | some TargetSymbol => .ok (PointerToGOT, TargetSymbol, Addend0, false)
  | Delta32 =>
    match parsePairRelocation findSymbolByIndex findSymbolByAddress blockToFixId
        RI FixupAddress FixupContent nextRel with
    | .error e => .error e
    | .ok (k, T, a) => .ok (k, T, a, true)
  | Delta64 =>
    match parsePairRelocation findSymbolByIndex findSymbolByAddress blockToFixId
        RI FixupAddress FixupContent nextRel with
    | .error e => .error e
    | .ok (k, T, a) => .ok (k, T, a, true)
  | _ => .error .unreachableKind

/-- The relocation loop of `addRelocations` (MachO_arm64.cpp:201-390) over
one section's relocation records, with the iterator modelled as the
remaining suffix of `rels`.  The unpaired-ADDEND guard is written exactly
as the source has it: the test `RelItr == RelEnd` (the current suffix is
empty) runs before the increment, inside the loop body where the suffix
always starts with the current record, so it can never succeed; the
subsequent unconditional `getRelocationInfo(RelItr)` on the incremented
iterator is the match on `rest`, whose `[]` outcome models the C++
dereference of the end iterator. -/
def addRelocationsLoop (SectionAddress : Nat)
    (findSymbolByIndex findSymbolByAddress : Nat → Option Sym)
    (findBlockByAddress : Nat → Option BlockRef) :
    List relocation_info → List ParsedEdge →
    Except JITLinkError (List ParsedEdge)
  | [], acc => .ok acc
  | RI :: rest, acc =>
    match getRelocationKind RI with
    | .error e => .error e
    | .ok Kind =>
      let FixupAddress := SectionAddress + RI.r_address % 2 ^ 32
      match findBlockByAddress FixupAddress with
      | none => .error (.missingSymbolAtAddress FixupAddress)
      | some BlockToFix =>
        if FixupAddress + (1 <<< RI.r_length) >
            BlockToFix.address + BlockToFix.content.length then
          .error .contentPastBlockEnd
        else
          let FixupContent := BlockToFix.content.drop (FixupAddress - BlockToFix.address)
          if Kind = PairedAddend then
            if RI :: rest = [] then .error (.unpairedAddend FixupAddress)
            else
              match rest with
              | [] => .error .readPastRelocEnd
              | RI2 :: rest2 =>
                match getRelocationKind RI2 with
                | .error e => .error e
                | .ok Kind2 =>
                  if Kind2 ≠ Branch26 ∧ Kind2 ≠ Page21 ∧ Kind2 ≠ PageOffset12 then
                    .error (.invalidAddendPairKind Kind2)
                  else if SectionAddress + RI2.r_address % 2 ^ 32 ≠ FixupAddress then
                    .error .pairedAddressMismatch
                  else
                    match relocSwitch findSymbolByIndex findSymbolByAddress
                        BlockToFix.blockId FixupAddress FixupContent Kind2 RI2
                        RI.r_symbolnum rest2.head? with
                    | .error e => .error e
                    | .ok (k, T, a, _) =>
                      addRelocationsLoop SectionAddress findSymbolByIndex
                        findSymbolByAddress findBlockByAddress rest2
                        (acc ++ [⟨BlockToFix.blockId, k,
                          FixupAddress - BlockToFix.address, T, a⟩])
          else
            match relocSwitch findSymbolByIndex findSymbolByAddress
                BlockToFix.blockId FixupAddress FixupContent Kind RI 0
                rest.head? with
            | .error e => .error e
            | .ok (k, T, a, true) =>
              -- a consumed SUBTRACTOR pair implies `rest` is nonempty
              -- (`parsePairRelocation` fails on `none`), so the `[]` arm
              -- below is never reached
              match rest with
              | [] => .error .subtractorNoPairedUnsigned
              | _ :: rest2 =>
                addRelocationsLoop SectionAddress findSymbolByIndex
                  findSymbolByAddress findBlockByAddress rest2
                  (acc ++ [⟨BlockToFix.blockId, k,
                    FixupAddress - BlockToFix.address, T, a⟩])
            | .ok (k, T, a, false) =>
              addRelocationsLoop SectionAddress findSymbolByIndex
                findSymbolByAddress findBlockByAddress rest
                (acc ++ [⟨BlockToFix.blockId, k,
                  FixupAddress - BlockToFix.address, T, a⟩])

/-- `addRelocations` for one section, starting at the first record with no
edges yet. -/
def addRelocations (SectionAddress : Nat)
    (findSymbolByIndex findSymbolByAddress : Nat → Option Sym)
    (findBlockByAddress : Nat → Option BlockRef)
    (rels : List relocation_info) : Except JITLinkError (List ParsedEdge) :=
  addRelocationsLoop SectionAddress findSymbolByIndex findSymbolByAddress
    findBlockByAddress rels []

/-- **C10.** For `Page21`, `GOTPage21`, `PageOffset12` and
`GOTPageOffset12` edges the bytes written by the fixup applier depend
only on the target address, the block address and the instruction word:
changing the edge's addend (which the parser's ADDEND pairing path can
make nonzero for `Page21`/`PageOffset12`) never changes the result. -/
theorem page_fixups_ignore_addend (BlockAddress : Nat) (Content : List Nat)
    (Offset TargetAddress : Nat) (A A' : Int) :
    (applyFixup BlockAddress Content Offset Page21 TargetAddress A =
      applyFixup BlockAddress Content Offset Page21 TargetAddress A') ∧
    (applyFixup BlockAddress Content Offset GOTPage21 TargetAddress A =
      applyFixup BlockAddress Content Offset GOTPage21 TargetAddress A') ∧
    (applyFixup BlockAddress Content Offset PageOffset12 TargetAddress A =
      applyFixup BlockAddress Content Offset PageOffset12 TargetAddress A') ∧
    (applyFixup BlockAddress Content Offset GOTPageOffset12 TargetAddress A =
      applyFixup BlockAddress Content Offset GOTPageOffset12 TargetAddress A') ∧
    addRelocations 0x1000 (fun n => if n = 3 then some ⟨0x5000, 9⟩ else none)
      (fun _ => none)
      (fun a => if a = 0x1000 then some ⟨0, 0x1000, [0x00, 0x00, 0x00, 0x90]⟩
        else none)
      [⟨0, 5, false, 2, false, 10⟩, ⟨0, 3, true, 2, true, 3⟩] =
      .ok [⟨0, Page21, 0, ⟨0x5000, 9⟩, 5⟩] :=
  ⟨rfl, rfl, rfl, rfl, rfl⟩

/-- **C4.** For a `Branch26` edge with `V = target.address - (block.address
+ offset) + addend` and the parser-verified precondition that the
instruction word is a B or BL with zero embedded immediate, the applier:
fails `Misalignment` when `V` is not 4-aligned; among 4-aligned values
fails `OutOfRange` exactly when `V` is outside `[-2^27, 2^27)`; and
otherwise writes a 32-bit word whose top six bits equal the original
instruction's (`W / 2^26` unchanged, with both words below `2^32`) and
whose low 26 bits hold `imm26 = (V >> 2) & 0x3ffffff` (here rendered
`(V / 4) % 2^26` of the 4-aligned `V`). -/
theorem branch26_fixup_behavior (BlockAddress : Nat) (Content : List Nat)
    (Offset TargetAddress : Nat) (Addend : Int)
    (hInstr : read32LE Content Offset &&& 0x7fffffff = 0x14000000)
    (V : Int)
    (hV : V = (TargetAddress : Int) - ((BlockAddress + Offset : Nat) : Int) + Addend)
    (hlo : -(2 ^ 63) ≤ V) (hhi : V < 2 ^ 63) :
    (V % 4 ≠ 0 →
      applyFixup BlockAddress Content Offset Branch26 TargetAddress Addend =
        .error .branch26Misaligned) ∧
    (V % 4 = 0 → (V < -(2 ^ 27) ∨ V > 2 ^ 27 - 1) →
      applyFixup BlockAddress Content Offset Branch26 TargetAddress Addend =
        .error (.targetOutOfRange Branch26)) ∧
    (V % 4 = 0 → -(2 ^ 27) ≤ V → V ≤ 2 ^ 27 - 1 →
      ∃ W, applyFixup BlockAddress Content Offset Branch26 TargetAddress Addend =
          .ok (write32LE Content Offset W) ∧
        W / 2 ^ 26 = read32LE Content Offset / 2 ^ 26 ∧
        W % 2 ^ 26 = ((V / 4) % 2 ^ 26).toNat) := by
  have hVe : wrap64 ((TargetAddress : Int) - ((BlockAddress + Offset : Nat) : Int)
      + Addend) = V := by
    rw [← hV]
    exact wrap64_eq_self (hV ▸ hlo) (hV ▸ hhi)
  unfold applyFixup
  dsimp only
  rw [hVe]
  refine ⟨fun h4 => ?_, fun h4 hr => ?_, fun h4 hlo27 hhi27 => ?_⟩
  · have hcond : u64 V % 4 ≠ 0 := by unfold u64; omega
    simp only [if_pos hcond]
  · have hcond : ¬ u64 V % 4 ≠ 0 := by unfold u64; omega
    simp only [if_neg hcond, if_pos hr]
  · have hcond : ¬ u64 V % 4 ≠ 0 := by unfold u64; omega
    have hrange : ¬ (V < -(2 ^ 27) ∨ V > 2 ^ 27 - 1) := by omega
    simp only [if_neg hcond, if_neg hrange]
    refine ⟨read32LE Content Offset ||| (u32 V &&& (2 ^ 28 - 1)) >>> 2, rfl, ?_, ?_⟩
    all_goals {
      have hR32 : read32LE Content Offset < 2 ^ 32 := by
        have := readLE_lt Content Offset 4
        simpa [read32LE] using this
      have hR31 : read32LE Content Offset % 2 ^ 31 = 0x14000000 := by
        have h1 : (0x7fffffff : Nat) = 2 ^ 31 - 1 := by norm_num
        rw [h1, Nat.and_pow_two_sub_one_eq_mod] at hInstr
        exact hInstr
      have hImm : (u32 V &&& (2 ^ 28 - 1)) >>> 2 = ((V / 4) % 2 ^ 26).toNat := by
        rw [Nat.and_pow_two_sub_one_eq_mod, Nat.shiftRight_eq_div_pow]
        unfold u32
        omega
      have hImmLt : (u32 V &&& (2 ^ 28 - 1)) >>> 2 < 2 ^ 26 := by
        rw [hImm]
        omega
      have hOr : read32LE Content Offset ||| (u32 V &&& (2 ^ 28 - 1)) >>> 2 =
          read32LE Content Offset + (u32 V &&& (2 ^ 28 - 1)) >>> 2 := by
        have hsplit : 2 ^ 26 * (read32LE Content Offset / 2 ^ 26) =
            read32LE Content Offset := by omega
        rw [← hsplit, ← Nat.mul_add_lt_is_or hImmLt]
      rw [hOr, hImm]
      omega
    }

/-- **C5.** For a `PageOffset12` edge the applier derives the shift from
the instruction word `I` exactly as the spec states (the size field
`I >> 30` for GPR LDR immediates and Neon LDR immediates up to 64-bit,
4 for 128-bit Neon LDR immediates, 0 otherwise); it fails
`Misalignment` exactly when the page offset `target.address & 0xfff` is
not a multiple of `1 << shift`, and otherwise writes
`I | (((target.address & 0xfff) >> shift) << 10)`. -/
theorem pageoffset12_fixup_behavior (BlockAddress : Nat) (Content : List Nat)
    (Offset TargetAddress : Nat) (Addend : Int) :
    ((read32LE Content Offset &&& 0x3ffffc00 = 0x39400000 →
      getPageOffset12Shift (read32LE Content Offset) = read32LE Content Offset >>> 30) ∧
     (read32LE Content Offset &&& 0x3ffffc00 = 0x3d400000 →
      getPageOffset12Shift (read32LE Content Offset) = read32LE Content Offset >>> 30) ∧
     (read32LE Content Offset &&& 0xfffffc00 = 0x3dc00000 →
      getPageOffset12Shift (read32LE Content Offset) = 4) ∧
     (read32LE Content Offset &&& 0x3ffffc00 ≠ 0x39400000 →
      read32LE Content Offset &&& 0x3ffffc00 ≠ 0x3d400000 →
      read32LE Content Offset &&& 0xfffffc00 ≠ 0x3dc00000 →
      getPageOffset12Shift (read32LE Content Offset) = 0)) ∧
    (¬ 2 ^ getPageOffset12Shift (read32LE Content Offset) ∣ TargetAddress % 4096 →
      applyFixup BlockAddress Content Offset PageOffset12 TargetAddress Addend =
        .error .pageOffset12Misaligned) ∧
    (2 ^ getPageOffset12Shift (read32LE Content Offset) ∣ TargetAddress % 4096 →
      applyFixup BlockAddress Content Offset PageOffset12 TargetAddress Addend =
        .ok (write32LE Content Offset (read32LE Content Offset |||
          (((TargetAddress % 4096) >>> getPageOffset12Shift (read32LE Content Offset))
            <<< 10)))) := by
  have hcond : (TargetAddress % 4096 &&&
      ((1 <<< getPageOffset12Shift (read32LE Content Offset)) - 1) ≠ 0) ↔
      ¬ 2 ^ getPageOffset12Shift (read32LE Content Offset) ∣ TargetAddress % 4096 := by
    rw [Nat.one_shiftLeft, Nat.and_pow_two_sub_one_eq_mod]
    simp [Nat.dvd_iff_mod_eq_zero]
  refine ⟨⟨fun h1 => ?_, fun h2 => ?_, fun h3 => ?_, fun h1 h2 h3 => ?_⟩,
    fun hnd => ?_, fun hd => ?_⟩
  · unfold getPageOffset12Shift
    rw [if_pos h1]
  · unfold getPageOffset12Shift
    have h1 : read32LE Content Offset &&& 0x3ffffc00 ≠ 0x39400000 := by
      rw [h2]; norm_num
    rw [if_neg h1, if_pos h2]
  · have h1 : read32LE Content Offset &&& 0x3ffffc00 = 0x3dc00000 := by
      have hmask : (0xfffffc00 : Nat) &&& 0x3ffffc00 = 0x3ffffc00 := by decide
      rw [← hmask, ← Nat.and_assoc, h3]
      decide
    unfold getPageOffset12Shift
    rw [if_neg (by rw [h1]; norm_num), if_neg (by rw [h1]; norm_num), if_pos h3]
  · unfold getPageOffset12Shift
    rw [if_neg h1, if_neg h2, if_neg h3]
  · unfold applyFixup
    dsimp only
    rw [if_pos (hcond.mpr hnd)]
  · unfold applyFixup
    dsimp only
    rw [if_neg (fun hx => (hcond.mp hx) hd)]

/-- **C9 evaluation.** The applier's `LDRLiteral19` case at concrete
inputs.  First conjunct: with the correct `LDR x16, <literal>` word
`0x58000010` and target 4 bytes before the fixup (delta `-4`), the code
writes `0xFFFFFFF0` — the missing `& 0x7ffff` mask lets the negative
delta's sign bits overwrite the opcode bits (the intended encoding is
`0x58FFFFF0`).  Second conjunct: with an instruction word that is not
`0x58000010` at all, the applier succeeds and patches anyway — no
BadInstr link error exists on this path (the check is only a debug
assert). -/
theorem ldrLiteral19_code_behavior :
    applyFixup 0x1000 [0x10, 0x00, 0x00, 0x58] 0 LDRLiteral19 0xffc 0 =
      .ok [0xf0, 0xff, 0xff, 0xff] ∧
    applyFixup 0x1000 [0x00, 0x00, 0x00, 0x00] 0 LDRLiteral19 0x1004 0 =
      .ok [0x20, 0x00, 0x00, 0x00] := by
  exact ⟨rfl, rfl⟩

/-- Witness for C4 at the spec's scenario 1: a `BL` at `0x1000` with a
`Branch26` edge to `0x1100` (V = `0x100`) patches to `imm26 = 0x40` with
the opcode bits preserved. -/
theorem branch26_fixup_witness :
    ∃ W, applyFixup 0x1000 [0, 0, 0, 0x94] 0 Branch26 0x1100 0 =
        .ok (write32LE [0, 0, 0, 0x94] 0 W) ∧
      W / 2 ^ 26 = read32LE [0, 0, 0, 0x94] 0 / 2 ^ 26 ∧
      W % 2 ^ 26 = (((0x100 : Int) / 4) % 2 ^ 26).toNat :=
  (branch26_fixup_behavior 0x1000 [0, 0, 0, 0x94] 0 0x1100 0 (by decide) 0x100
    (by decide) (by decide) (by decide)).2.2 (by decide) (by decide) (by decide)

/-- Witness for C5 at the spec's alignment scenario: a 64-bit LDR
immediate (`0xf9400000`, shift 3) with `PageOffset12` to page offset
`0xff9` fails `Misalignment`. -/
theorem pageoffset12_fixup_witness :
    applyFixup 0x1000 [0x00, 0x00, 0x40, 0xf9] 0 PageOffset12 0xff9 0 =
      .error .pageOffset12Misaligned :=
  (pageoffset12_fixup_behavior 0x1000 [0x00, 0x00, 0x40, 0xf9] 0 0xff9 0).2.1
    (by decide)

/-- **C8 evaluation.** A relocation stream that ends with an ADDEND
record: the parser reads past the end of the stream (the C++
dereferences the end iterator) instead of failing with the "Unpaired
Addend" BadRelocation error, because the guard `RelItr == RelEnd` is
checked before the increment, at a point where the loop condition
guarantees it is false. -/
theorem unpaired_addend_reads_past_end :
    addRelocations 0x1000 (fun _ => none) (fun _ => none)
      (fun a => if a = 0x1000 then some ⟨0, 0x1000, [0, 0, 0, 0]⟩ else none)
      [⟨0, 5, false, 2, false, 10⟩] =
      .error .readPastRelocEnd := rfl

/-! ## The link graph and the GOT-and-stubs builder

The driver of `BasicGOTAndStubsBuilder` (the edge scan and the per-target
caches) is not part of this repository's sources — only its header name
and the callbacks it invokes appear in MachO_arm64.cpp.  The driver below
is modelled from the spec (§4.2): "Scans every edge of every block.
Maintains a per-target cache: target-symbol → GOT-entry-symbol,
target-symbol → stub-symbol"; the callbacks `isGOTEdge`,
`createGOTEntry`, `fixGOTEdge`, `isExternalBranchEdge`, `createStub`,
`fixExternalBranchEdge`, the section getters and the block contents are
translated from MachO_arm64.cpp:395-480.  Blocks and symbols are
arena-indexed: a `GEdge.target` is an index into `symbols`, a
`GSymbol.blockId` an index into `blocks` (`none` for external
symbols, whose addressable is not a block). -/

structure GEdge where
  kind : MachOARM64RelocationKind
  offset : Nat
  target : Nat
  addend : Int
  deriving DecidableEq, Repr

structure GBlock where
  sectionName : String
  address : Nat
  alignment : Nat
  content : List Nat
  edges : List GEdge
  deriving DecidableEq, Repr

structure GSymbol where
  blockId : Option Nat
  offset : Nat
  size : Nat
  isCallable : Bool
  isLive : Bool
  deriving DecidableEq, Repr

instance : Inhabited GBlock := ⟨⟨"", 0, 0, [], []⟩⟩

instance : Inhabited GSymbol := ⟨⟨none, 0, 0, false, false⟩⟩

structure LinkGraph where
  blocks : List GBlock
  symbols : List GSymbol
  sections : List (String × Nat)
  deriving DecidableEq, Repr

def MF_READ : Nat := 1
def MF_WRITE : Nat := 2
def MF_EXEC : Nat := 4

/-- `Symbol::isDefined()`: the symbol's addressable is a block. -/
def symIsDefined (g : LinkGraph) (s : Nat) : Bool :=
  ((g.symbols.getD s default).blockId).isSome

/-- `MachO_arm64_GOTAndStubsBuilder::NullGOTEntryContent`. -/
def NullGOTEntryContent : List Nat := [0, 0, 0, 0, 0, 0, 0, 0]

/-- `MachO_arm64_GOTAndStubsBuilder::StubContent`:
`LDR x16, <literal>; BR x16`. -/
def StubContent : List Nat := [0x10, 0x00, 0x00, 0x58, 0x00, 0x02, 0x1f, 0xd6]

/-- The builder state: the graph plus the two per-target caches
(association lists keyed by the target symbol id). -/
structure BuilderState where
  g : LinkGraph
  gotEntries : List (Nat × Nat)
  stubs : List (Nat × Nat)
  deriving DecidableEq, Repr

def alookup : List (Nat × Nat) → Nat → Option Nat
  | [], _ => none
  | (k, v) :: m, t => if k = t then some v else alookup m t

/-- `getGOTSection`/`getStubsSection`: create the named section on first
use, idempotently. -/
def ensureSection (g : LinkGraph) (name : String) (prot : Nat) : LinkGraph :=
  if g.sections.any (fun s => s.1 == name) then g
  else { g with sections := g.sections ++ [(name, prot)] }

/-- `isGOTEdge` (on the edge's kind). -/
def isGOTEdgeKind (k : MachOARM64RelocationKind) : Bool :=
  k == GOTPage21 || k == GOTPageOffset12 || k == PointerToGOT

/-- `fixGOTEdge`: retarget to the GOT entry; `PointerToGOT` also becomes
`Delta32`.  Other kinds are `llvm_unreachable` (modelled as identity). -/
def fixGOTEdge (e : GEdge) (GOTEntry : Nat) : GEdge :=
  if e.kind = GOTPage21 ∨ e.kind = GOTPageOffset12 then
    { e with target := GOTEntry }
  else if e.kind = PointerToGOT then
    { e with target := GOTEntry, kind := Delta32 }
  else e

/-- `isExternalBranchEdge`: a `Branch26` edge whose target is not
defined. -/
def isExternalBranchEdge (g : LinkGraph) (e : GEdge) : Bool :=
  e.kind == Branch26 && !symIsDefined g e.target

/-- The block that is `gotEntryBlockFor t`: an 8-byte zero block in
`$__GOT`, alignment 8, with the single edge `(Pointer64, 0, t, 0)`
(`createGOTEntry`). -/
def gotEntryBlockFor (t : Nat) : GBlock :=
  ⟨"$__GOT", 0, 8, NullGOTEntryContent, [⟨Pointer64, 0, t, 0⟩]⟩

/-- The block a stub occupies once built: the two stub instructions in
`$__STUBS`, alignment 1, with the single edge
`(LDRLiteral19, 0, gotSym, 0)` (`createStub`). -/
def stubBlockFor (gotSym : Nat) : GBlock :=
  ⟨"$__STUBS", 0, 1, StubContent, [⟨LDRLiteral19, 0, gotSym, 0⟩]⟩

/-- `createGOTEntry` (MachO_arm64.cpp:406-411). -/
def createGOTEntry (st : BuilderState) (Target : Nat) : BuilderState × Nat :=
  let g1 := ensureSection st.g "$__GOT" MF_READ
  let bid := g1.blocks.length
  let g2 := { g1 with blocks := g1.blocks ++ [gotEntryBlockFor Target] }
  let sid := g2.symbols.length
  let g3 := { g2 with symbols := g2.symbols ++ [⟨some bid, 0, 8, false, false⟩] }
  ({ st with g := g3 }, sid)

/-- `BasicGOTAndStubsBuilder::getGOTEntrySymbol`, modelled from the spec's
per-target cache: reuse the cached entry or create one. -/
def getGOTEntrySymbol (st : BuilderState) (Target : Nat) : BuilderState × Nat :=
  match alookup st.gotEntries Target with
  | some s => (st, s)
  | none =>
    let r := createGOTEntry st Target
    ({ r.1 with gotEntries := (Target, r.2) :: r.1.gotEntries }, r.2)

def addEdgeToBlock (g : LinkGraph) (bid : Nat) (e : GEdge) : LinkGraph :=
  match g.blocks[bid]? with
  | none => g
  | some b => { g with blocks := g.blocks.set bid { b with edges := b.edges ++ [e] } }

/-- `createStub` (MachO_arm64.cpp:428-435): the stub content block is
created first, then the GOT entry is obtained (reusing the cache), the
`LDRLiteral19` edge is added, and the anonymous (callable) symbol is
created. -/
def createStub (st : BuilderState) (Target : Nat) : BuilderState × Nat :=
  let g1 := ensureSection st.g "$__STUBS" (MF_READ + MF_EXEC)
  let bid := g1.blocks.length
  let g2 := { g1 with blocks := g1.blocks ++
    [⟨"$__STUBS", 0, 1, StubContent, []⟩] }
  let r := getGOTEntrySymbol { st with g := g2 } Target
  let g3 := addEdgeToBlock r.1.g bid ⟨LDRLiteral19, 0, r.2, 0⟩
  let sid := g3.symbols.length
  let g4 := { g3 with symbols := g3.symbols ++ [⟨some bid, 0, 8, true, false⟩] }
  ({ r.1 with g := g4 }, sid)

/-- `BasicGOTAndStubsBuilder::getStubSymbol`, modelled from the spec's
per-target cache. -/
def getStubSymbol (st : BuilderState) (Target : Nat) : BuilderState × Nat :=
  match alookup st.stubs Target with
  | some s => (st, s)
  | none =>
    let r := createStub st Target
    ({ r.1 with stubs := (Target, r.2) :: r.1.stubs }, r.2)

def edgeAt (g : LinkGraph) (b j : Nat) : Option GEdge :=
  match g.blocks[b]? with
  | none => none
  | some blk => blk.edges[j]?

def setEdge (g : LinkGraph) (b j : Nat) (e : GEdge) : LinkGraph :=
  match g.blocks[b]? with
  | none => g
  | some blk =>
    { g with blocks := g.blocks.set b { blk with edges := blk.edges.set j e } }

/-- One iteration of the builder's scan, at block `p.1`, edge `p.2`:
classify the edge and fix it through the caches.  Modelled from the
spec's "Scans every edge of every block" with the source's callbacks. -/
def stepPair (st : BuilderState) (p : Nat × Nat) : BuilderState :=
  match edgeAt st.g p.1 p.2 with
  | none => st
  | some e =>
    if isGOTEdgeKind e.kind then
      let r := getGOTEntrySymbol st e.target
      { r.1 with g := setEdge r.1.g p.1 p.2 (fixGOTEdge e r.2) }
    else if isExternalBranchEdge st.g e then
      let r := getStubSymbol st e.target
      { r.1 with g := setEdge r.1.g p.1 p.2 { e with target := r.2 } }
    else st

/-- The edge positions of the original graph, in scan order (the C++
copies the block list before iterating, so newly created blocks are not
scanned). -/
def edgePairs (g : LinkGraph) : List (Nat × Nat) :=
  (List.range g.blocks.length).flatMap (fun b =>
    (List.range ((g.blocks.getD b default).edges.length)).map (fun j => (b, j)))

/-- `BasicGOTAndStubsBuilder::run`, modelled from the spec. -/
def runGOTAndStubs (g0 : LinkGraph) : BuilderState :=
  (edgePairs g0).foldl stepPair ⟨g0, [], []⟩

/-! ## Transition lemmas for the builder's primitive operations -/

/-- What `ensureSection` does to the `sections` list alone. -/
def ensureSectionList (ss : List (String × Nat)) (name : String) (prot : Nat) :
    List (String × Nat) :=
  if ss.any (fun s => s.1 == name) then ss else ss ++ [(name, prot)]

theorem ensureSection_blocks (g : LinkGraph) (n : String) (p : Nat) :
    (ensureSection g n p).blocks = g.blocks := by
  unfold ensureSection
  split <;> rfl

theorem ensureSection_symbols (g : LinkGraph) (n : String) (p : Nat) :
    (ensureSection g n p).symbols = g.symbols := by
  unfold ensureSection
  split <;> rfl

theorem ensureSection_sections (g : LinkGraph) (n : String) (p : Nat) :
    (ensureSection g n p).sections = ensureSectionList g.sections n p := by
  unfold ensureSection ensureSectionList
  split <;> rfl

theorem mem_ensureSectionList (ss : List (String × Nat)) (n : String) (p : Nat)
    (x : String × Nat) (h : x ∈ ensureSectionList ss n p) : x ∈ ss ∨ x = (n, p) := by
  unfold ensureSectionList at h
  split at h
  · exact Or.inl h
  · rcases List.mem_append.mp h with h1 | h1
    · exact Or.inl h1
    · exact Or.inr (List.mem_singleton.mp h1)

theorem mem_ensureSectionList_of_mem (ss : List (String × Nat)) (n : String)
    (p : Nat) (x : String × Nat) (h : x ∈ ss) : x ∈ ensureSectionList ss n p := by
  unfold ensureSectionList
  split
  · exact h
  · exact List.mem_append_left _ h

theorem self_mem_ensureSectionList (ss : List (String × Nat)) (n : String)
    (p : Nat) (h : ∀ pr, (n, pr) ∈ ss → pr = p) :
    (n, p) ∈ ensureSectionList ss n p := by
  unfold ensureSectionList
  split
  · rename_i hany
    rcases List.any_eq_true.mp hany with ⟨⟨n', pr⟩, hmem, hb⟩
    have hn : n' = n := by simpa using hb
    subst hn
    have := h pr hmem
    subst this
    exact hmem
  · exact List.mem_append_right _ (List.mem_singleton.mpr rfl)

theorem alookup_cons (k v : Nat) (m : List (Nat × Nat)) (t : Nat) :
    alookup ((k, v) :: m) t = if k = t then some v else alookup m t := rfl

theorem alookup_cons_of_none {m : List (Nat × Nat)} {k t v s : Nat}
    (hk : alookup m k = none) (h : alookup m t = some s) :
    alookup ((k, v) :: m) t = some s := by
  rw [alookup_cons, if_neg, h]
  intro e
  subst e
  rw [hk] at h
  cases h

theorem setEdge_symbols (g : LinkGraph) (b j : Nat) (e : GEdge) :
    (setEdge g b j e).symbols = g.symbols := by
  unfold setEdge
  split <;> rfl

theorem setEdge_sections (g : LinkGraph) (b j : Nat) (e : GEdge) :
    (setEdge g b j e).sections = g.sections := by
  unfold setEdge
  split <;> rfl

theorem setEdge_blocks_length (g : LinkGraph) (b j : Nat) (e : GEdge) :
    (setEdge g b j e).blocks.length = g.blocks.length := by
  unfold setEdge
  split
  · rfl
  · simp

theorem blocks_setEdge_ne (g : LinkGraph) (b j : Nat) (e : GEdge) (b' : Nat)
    (h : b' ≠ b) : (setEdge g b j e).blocks[b']? = g.blocks[b']? := by
  unfold setEdge
  split
  · rfl
  · simp only
    rw [List.getElem?_set_ne (fun hx => h hx.symm)]

theorem edgeAt_congr {g g' : LinkGraph} (b j : Nat)
    (h : g'.blocks[b]? = g.blocks[b]?) : edgeAt g' b j = edgeAt g b j := by
  unfold edgeAt
  rw [h]

theorem edgeAt_setEdge_self {g : LinkGraph} {b j : Nat} (e : GEdge)
    {e0 : GEdge} (h : edgeAt g b j = some e0) :
    edgeAt (setEdge g b j e) b j = some e := by
  unfold edgeAt at h ⊢
  unfold setEdge
  cases hb : g.blocks[b]? with
  | none => rw [hb] at h; cases h
  | some blk =>
    rw [hb] at h
    simp only [hb]
    have hblen : b < g.blocks.length := by
      have := List.getElem?_eq_some_iff.mp hb
      exact this.1
    rw [List.getElem?_set_self (by simpa using hblen)]
    have hj : j < blk.edges.length := by
      have := List.getElem?_eq_some_iff.mp h
      exact this.1
    simpa using List.getElem?_set_self (l := blk.edges) (a := e) hj

theorem edgeAt_setEdge_ne {g : LinkGraph} {b j : Nat} (e : GEdge) {b' j' : Nat}
    (h : ¬(b' = b ∧ j' = j)) :
    edgeAt (setEdge g b j e) b' j' = edgeAt g b' j' := by
  by_cases hb : b' = b
  · subst hb
    have hj : j' ≠ j := fun hj => h ⟨rfl, hj⟩
    unfold edgeAt setEdge
    cases hb2 : g.blocks[b']? with
    | none => simp only [hb2]
    | some blk =>
      simp only [hb2]
      have hblen : b' < g.blocks.length :=
        (List.getElem?_eq_some_iff.mp hb2).1
      rw [List.getElem?_set_self (by simpa using hblen)]
      simp only
      rw [List.getElem?_set_ne (fun hx => hj hx.symm)]
  · exact edgeAt_congr _ _ (blocks_setEdge_ne _ _ _ _ _ hb)

theorem setEdge_block_shape (g : LinkGraph) (b j : Nat) (e : GEdge) (b' : Nat) :
    ((setEdge g b j e).blocks.getD b' default).sectionName =
      (g.blocks.getD b' default).sectionName ∧
    ((setEdge g b j e).blocks.getD b' default).edges.length =
      (g.blocks.getD b' default).edges.length := by
  by_cases hb : b' = b
  · subst hb
    unfold setEdge
    cases hb2 : g.blocks[b']? with
    | none => simp
    | some blk =>
      simp only
      have hblen : b' < g.blocks.length :=
        (List.getElem?_eq_some_iff.mp hb2).1
      simp only [List.getD_eq_getElem?_getD,
        List.getElem?_set_self (by simpa using hblen), hb2]
      simp
  · unfold setEdge
    split
    · exact ⟨rfl, rfl⟩
    · simp only [List.getD_eq_getElem?_getD,
        List.getElem?_set_ne (fun hx => hb hx.symm)]
      trivial

theorem createGOTEntry_eq (st : BuilderState) (T : Nat) :
    createGOTEntry st T =
      (⟨⟨st.g.blocks ++ [gotEntryBlockFor T],
        st.g.symbols ++ [⟨some st.g.blocks.length, 0, 8, false, false⟩],
        ensureSectionList st.g.sections "$__GOT" MF_READ⟩,
        st.gotEntries, st.stubs⟩, st.g.symbols.length) := by
  unfold createGOTEntry ensureSection ensureSectionList
  split <;> rfl

theorem getGOTEntrySymbol_hit {st : BuilderState} {T s : Nat}
    (h : alookup st.gotEntries T = some s) :
    getGOTEntrySymbol st T = (st, s) := by
  unfold getGOTEntrySymbol
  rw [h]

theorem getGOTEntrySymbol_miss {st : BuilderState} {T : Nat}
    (h : alookup st.gotEntries T = none) :
    getGOTEntrySymbol st T =
      (⟨⟨st.g.blocks ++ [gotEntryBlockFor T],
        st.g.symbols ++ [⟨some st.g.blocks.length, 0, 8, false, false⟩],
        ensureSectionList st.g.sections "$__GOT" MF_READ⟩,
        (T, st.g.symbols.length) :: st.gotEntries, st.stubs⟩,
        st.g.symbols.length) := by
  unfold getGOTEntrySymbol
  rw [h]
  simp only [createGOTEntry_eq]

theorem createStub_hit {st : BuilderState} {T gs : Nat}
    (h : alookup st.gotEntries T = some gs) :
    createStub st T =
      (⟨⟨st.g.blocks ++ [stubBlockFor gs],
        st.g.symbols ++ [⟨some st.g.blocks.length, 0, 8, true, false⟩],
        ensureSectionList st.g.sections "$__STUBS" (MF_READ + MF_EXEC)⟩,
        st.gotEntries, st.stubs⟩, st.g.symbols.length) := by
  unfold createStub getGOTEntrySymbol addEdgeToBlock
  dsimp only
  simp only [ensureSection_blocks, ensureSection_symbols, ensureSection_sections]
  rw [h]
  dsimp only
  rw [List.getElem?_concat_length]
  dsimp only
  rw [List.set_append_right _ _ (Nat.le_refl _)]
  simp only [Nat.sub_self, List.set_cons_zero, List.nil_append, stubBlockFor]

theorem createStub_miss {st : BuilderState} {T : Nat}
    (h : alookup st.gotEntries T = none) :
    createStub st T =
      (⟨⟨st.g.blocks ++ [stubBlockFor st.g.symbols.length, gotEntryBlockFor T],
        st.g.symbols ++ [⟨some (st.g.blocks.length + 1), 0, 8, false, false⟩,
          ⟨some st.g.blocks.length, 0, 8, true, false⟩],
        ensureSectionList
          (ensureSectionList st.g.sections "$__STUBS" (MF_READ + MF_EXEC))
          "$__GOT" MF_READ⟩,
        (T, st.g.symbols.length) :: st.gotEntries, st.stubs⟩,
        st.g.symbols.length + 1) := by
  unfold createStub getGOTEntrySymbol createGOTEntry addEdgeToBlock
  dsimp only
  simp only [ensureSection_blocks, ensureSection_symbols, ensureSection_sections]
  rw [h]
  dsimp only
  rw [show (st.g.blocks ++ [⟨"$__STUBS", 0, 1, StubContent, []⟩] ++
      [gotEntryBlockFor T])[st.g.blocks.length]? =
      some ⟨"$__STUBS", 0, 1, StubContent, []⟩ from by
    rw [List.getElem?_append_left (by simp), List.getElem?_concat_length]]
  dsimp only
  rw [List.set_append_left _ _ (by simp),
    List.set_append_right _ _ (Nat.le_refl _)]
  simp [stubBlockFor, List.append_assoc]

theorem getStubSymbol_hit {st : BuilderState} {T s : Nat}
    (h : alookup st.stubs T = some s) :
    getStubSymbol st T = (st, s) := by
  unfold getStubSymbol
  rw [h]

theorem getStubSymbol_miss_g {st : BuilderState} {T : Nat}
    (h : alookup st.stubs T = none) :
    getStubSymbol st T =
      ({ (createStub st T).1 with
        stubs := (T, (createStub st T).2) :: (createStub st T).1.stubs },
        (createStub st T).2) := by
  unfold getStubSymbol
  rw [h]

/-! ## The pass invariant -/

/-- Precondition on the input graph for the GOT/stubs pass: the
synthetic sections do not exist yet (they are created on demand by the
pass) and every edge targets an existing symbol. -/
def PassPre (g0 : LinkGraph) : Prop :=
  (∀ b ∈ g0.blocks, b.sectionName ≠ "$__GOT" ∧ b.sectionName ≠ "$__STUBS") ∧
  (∀ s ∈ g0.sections, s.1 ≠ "$__GOT" ∧ s.1 ≠ "$__STUBS") ∧
  (∀ b ∈ g0.blocks, ∀ e ∈ b.edges, e.target < g0.symbols.length)

instance (g0 : LinkGraph) : Decidable (PassPre g0) := by
  unfold PassPre
  infer_instance

/-- The invariant maintained while the builder scans the original edge
positions; `done` is the set of positions already processed. -/
structure PassInv (g0 : LinkGraph) (done : List (Nat × Nat))
    (st : BuilderState) : Prop where
  blocksLen : g0.blocks.length ≤ st.g.blocks.length
  symsLen : g0.symbols.length ≤ st.g.symbols.length
  oldSyms : ∀ i, i < g0.symbols.length → st.g.symbols[i]? = g0.symbols[i]?
  oldBlocks : ∀ b, b < g0.blocks.length →
    (st.g.blocks.getD b default).sectionName =
      (g0.blocks.getD b default).sectionName ∧
    (st.g.blocks.getD b default).edges.length =
      (g0.blocks.getD b default).edges.length
  untouched : ∀ b j, b < g0.blocks.length → (b, j) ∉ done →
    edgeAt st.g b j = edgeAt g0 b j
  processedGOT : ∀ b j e0, (b, j) ∈ done → edgeAt g0 b j = some e0 →
    isGOTEdgeKind e0.kind = true →
    ∃ s, alookup st.gotEntries e0.target = some s ∧
      edgeAt st.g b j = some (fixGOTEdge e0 s)
  processedBranch : ∀ b j e0, (b, j) ∈ done → edgeAt g0 b j = some e0 →
    e0.kind = Branch26 → symIsDefined g0 e0.target = false →
    ∃ s, alookup st.stubs e0.target = some s ∧
      edgeAt st.g b j = some { e0 with target := s }
  processedOther : ∀ b j e0, (b, j) ∈ done → edgeAt g0 b j = some e0 →
    isGOTEdgeKind e0.kind = false →
    (e0.kind = Branch26 → symIsDefined g0 e0.target = true) →
    edgeAt st.g b j = some e0
  gotMap : ∀ t s, alookup st.gotEntries t = some s →
    g0.symbols.length ≤ s ∧
    ∃ bid, g0.blocks.length ≤ bid ∧
      st.g.symbols[s]? = some ⟨some bid, 0, 8, false, false⟩ ∧
      st.g.blocks[bid]? = some (gotEntryBlockFor t)
  stubMap : ∀ t s, alookup st.stubs t = some s →
    g0.symbols.length ≤ s ∧
    ∃ bid gs, g0.blocks.length ≤ bid ∧
      st.g.symbols[s]? = some ⟨some bid, 0, 8, true, false⟩ ∧
      alookup st.gotEntries t = some gs ∧
      st.g.blocks[bid]? = some (stubBlockFor gs)
  newBlocks : ∀ bid blk, g0.blocks.length ≤ bid → st.g.blocks[bid]? = some blk →
    (∃ t s, alookup st.gotEntries t = some s ∧
      st.g.symbols[s]? = some ⟨some bid, 0, 8, false, false⟩ ∧
      blk = gotEntryBlockFor t) ∨
    (∃ t s gs, alookup st.stubs t = some s ∧
      st.g.symbols[s]? = some ⟨some bid, 0, 8, true, false⟩ ∧
      alookup st.gotEntries t = some gs ∧ blk = stubBlockFor gs)
  sectionsGOT : ∀ pr, ("$__GOT", pr) ∈ st.g.sections → pr = MF_READ
  sectionsSTUBS : ∀ pr, ("$__STUBS", pr) ∈ st.g.sections → pr = MF_READ + MF_EXEC
  gotSectionPresent : ∀ t s, alookup st.gotEntries t = some s →
    ("$__GOT", MF_READ) ∈ st.g.sections
  stubSectionPresent : ∀ t s, alookup st.stubs t = some s →
    ("$__STUBS", MF_READ + MF_EXEC) ∈ st.g.sections

theorem got_kind_ne_branch {k : MachOARM64RelocationKind}
    (h : isGOTEdgeKind k = true) : k ≠ Branch26 := by
  cases k <;> simp_all [isGOTEdgeKind]

theorem gotEntryBlockFor_inj {t t' : Nat}
    (h : gotEntryBlockFor t = gotEntryBlockFor t') : t = t' := by
  simpa [gotEntryBlockFor] using h

theorem gotBlock_ne_stubBlock (t s : Nat) :
    gotEntryBlockFor t ≠ stubBlockFor s := by
  simp [gotEntryBlockFor, stubBlockFor]

theorem getD_eq_of_getElem? {α : Type} [Inhabited α] {l : List α} {i : Nat}
    {x : α} (h : l[i]? = some x) : l.getD i default = x := by
  simp [List.getD_eq_getElem?_getD, h]

theorem edgeAt_some_of_lt {g : LinkGraph} {b j : Nat}
    (hb : b < g.blocks.length)
    (hj : j < (g.blocks.getD b default).edges.length) :
    ∃ e, edgeAt g b j = some e := by
  unfold edgeAt
  rw [List.getElem?_eq_getElem hb]
  have hD : g.blocks.getD b default = g.blocks[b] := by
    simp [List.getD_eq_getElem?_getD, List.getElem?_eq_getElem hb]
  rw [hD] at hj
  exact ⟨_, by dsimp only; rw [List.getElem?_eq_getElem hj]⟩

theorem symIsDefined_stable {g0 : LinkGraph} {done : List (Nat × Nat)}
    {st : BuilderState} (hInv : PassInv g0 done st) {t : Nat}
    (ht : t < g0.symbols.length) : symIsDefined st.g t = symIsDefined g0 t := by
  unfold symIsDefined
  simp only [List.getD_eq_getElem?_getD]
  rw [hInv.oldSyms t ht]

theorem edgeAt_some_lt {g : LinkGraph} {b j : Nat} {e : GEdge}
    (h : edgeAt g b j = some e) : b < g.blocks.length := by
  unfold edgeAt at h
  cases hb : g.blocks[b]? with
  | none => rw [hb] at h; cases h
  | some blk => exact (List.getElem?_eq_some_iff.mp hb).1

theorem getGOTEntrySymbol_inv {g0 : LinkGraph} {done : List (Nat × Nat)}
    {st : BuilderState} (hInv : PassInv g0 done st) (T : Nat) :
    PassInv g0 done (getGOTEntrySymbol st T).1 ∧
    alookup (getGOTEntrySymbol st T).1.gotEntries T =
      some (getGOTEntrySymbol st T).2 ∧
    (getGOTEntrySymbol st T).1.stubs = st.stubs ∧
    (∀ b', b' < st.g.blocks.length →
      (getGOTEntrySymbol st T).1.g.blocks[b']? = st.g.blocks[b']?) := by
  cases hHit : alookup st.gotEntries T with
  | some s =>
    rw [getGOTEntrySymbol_hit hHit]
    exact ⟨hInv, hHit, rfl, fun _ _ => rfl⟩
  | none =>
    rw [getGOTEntrySymbol_miss hHit]
    dsimp only
    have hbl : ∀ b', b' < st.g.blocks.length →
        (st.g.blocks ++ [gotEntryBlockFor T])[b']? = st.g.blocks[b']? :=
      fun b' h => List.getElem?_append_left h
    have hsy : ∀ i, i < st.g.symbols.length →
        (st.g.symbols ++
          [(⟨some st.g.blocks.length, 0, 8, false, false⟩ : GSymbol)])[i]? =
          st.g.symbols[i]? :=
      fun i h => List.getElem?_append_left h
    have hlookGot : ∀ t s, alookup st.gotEntries t = some s →
        alookup ((T, st.g.symbols.length) :: st.gotEntries) t = some s :=
      fun t s h => alookup_cons_of_none hHit h
    refine ⟨⟨?_, ?_, ?_, ?_, ?_, ?_, ?_, ?_, ?_, ?_, ?_, ?_, ?_, ?_, ?_⟩,
      ?_, rfl, hbl⟩
    · exact le_trans hInv.blocksLen (by simp)
    · exact le_trans hInv.symsLen (by simp)
    · exact fun i hi =>
        (hsy i (lt_of_lt_of_le hi hInv.symsLen)).trans (hInv.oldSyms i hi)
    · intro b hb
      have hb' := lt_of_lt_of_le hb hInv.blocksLen
      simp only [List.getD_eq_getElem?_getD, hbl b hb']
      have := hInv.oldBlocks b hb
      simpa [List.getD_eq_getElem?_getD] using this
    · exact fun b j hb hnd =>
        (edgeAt_congr b j (hbl b (lt_of_lt_of_le hb hInv.blocksLen))).trans
          (hInv.untouched b j hb hnd)
    · intro b j e0 hd he hg
      obtain ⟨s, hs1, hs2⟩ := hInv.processedGOT b j e0 hd he hg
      have hblt := edgeAt_some_lt hs2
      exact ⟨s, hlookGot _ _ hs1, (edgeAt_congr b j (hbl b hblt)).trans hs2⟩
    · intro b j e0 hd he hk hu
      obtain ⟨s, hs1, hs2⟩ := hInv.processedBranch b j e0 hd he hk hu
      have hblt := edgeAt_some_lt hs2
      exact ⟨s, hs1, (edgeAt_congr b j (hbl b hblt)).trans hs2⟩
    · intro b j e0 hd he hk hu
      have h2 := hInv.processedOther b j e0 hd he hk hu
      have hblt := edgeAt_some_lt h2
      exact (edgeAt_congr b j (hbl b hblt)).trans h2
    · intro t s h
      rw [alookup_cons] at h
      split at h
      · rename_i hTt
        cases h
        subst hTt
        refine ⟨le_trans hInv.symsLen (le_refl _), st.g.blocks.length,
          hInv.blocksLen, ?_, ?_⟩
        · rw [List.getElem?_concat_length]
        · rw [List.getElem?_concat_length]
      · obtain ⟨hle, bid, hbid, hsym, hblk⟩ := hInv.gotMap t s h
        have hslt := (List.getElem?_eq_some_iff.mp hsym).1
        have hblt := (List.getElem?_eq_some_iff.mp hblk).1
        exact ⟨hle, bid, hbid, (hsy s hslt).trans hsym,
          (hbl bid hblt).trans hblk⟩
    · intro t s h
      obtain ⟨hle, bid, gs, hbid, hsym, hgs, hblk⟩ := hInv.stubMap t s h
      have hslt := (List.getElem?_eq_some_iff.mp hsym).1
      have hblt := (List.getElem?_eq_some_iff.mp hblk).1
      exact ⟨hle, bid, gs, hbid, (hsy s hslt).trans hsym, hlookGot _ _ hgs,
        (hbl bid hblt).trans hblk⟩
    · intro bid blk hge hsome
      by_cases hlt : bid < st.g.blocks.length
      · rw [hbl bid hlt] at hsome
        rcases hInv.newBlocks bid blk hge hsome with
          ⟨t, s, h1, h2, h3⟩ | ⟨t, s, gs, h1, h2, h3, h4⟩
        · have hslt := (List.getElem?_eq_some_iff.mp h2).1
          exact Or.inl ⟨t, s, hlookGot _ _ h1, (hsy s hslt).trans h2, h3⟩
        · have hslt := (List.getElem?_eq_some_iff.mp h2).1
          exact Or.inr ⟨t, s, gs, h1, (hsy s hslt).trans h2,
            hlookGot _ _ h3, h4⟩
      · have hlen : bid < st.g.blocks.length + 1 := by
          have := (List.getElem?_eq_some_iff.mp hsome).1
          simpa using this
        have hbid : bid = st.g.blocks.length := by omega
        subst hbid
        rw [List.getElem?_concat_length] at hsome
        cases hsome
        refine Or.inl ⟨T, st.g.symbols.length, ?_, ?_, rfl⟩
        · rw [alookup_cons, if_pos rfl]
        · rw [List.getElem?_concat_length]
    · intro pr h
      rcases mem_ensureSectionList _ _ _ _ h with h1 | h1
      · exact hInv.sectionsGOT pr h1
      · cases h1
        rfl
    · intro pr h
      rcases mem_ensureSectionList _ _ _ _ h with h1 | h1
      · exact hInv.sectionsSTUBS pr h1
      · simp at h1
    · exact fun t s _ =>
        self_mem_ensureSectionList _ _ _ hInv.sectionsGOT
    · exact fun t s h =>
        mem_ensureSectionList_of_mem _ _ _ _ (hInv.stubSectionPresent t s h)
    · rw [alookup_cons, if_pos rfl]

theorem getStubSymbol_inv {g0 : LinkGraph} {done : List (Nat × Nat)}
    {st : BuilderState} (hInv : PassInv g0 done st) (T : Nat) :
    PassInv g0 done (getStubSymbol st T).1 ∧
    alookup (getStubSymbol st T).1.stubs T = some (getStubSymbol st T).2 ∧
    (∀ t s, alookup st.gotEntries t = some s →
      alookup (getStubSymbol st T).1.gotEntries t = some s) ∧
    (∀ b', b' < st.g.blocks.length →
      (getStubSymbol st T).1.g.blocks[b']? = st.g.blocks[b']?) := by
  cases hSHit : alookup st.stubs T with
  | some s =>
    rw [getStubSymbol_hit hSHit]
    exact ⟨hInv, hSHit, fun _ _ h => h, fun _ _ => rfl⟩
  | none =>
    rw [getStubSymbol_miss_g hSHit]
    cases hGHit : alookup st.gotEntries T with
    | some gs =>
      rw [createStub_hit hGHit]
      dsimp only
      have hbl : ∀ b', b' < st.g.blocks.length →
          (st.g.blocks ++ [stubBlockFor gs])[b']? = st.g.blocks[b']? :=
        fun b' h => List.getElem?_append_left h
      have hsy : ∀ i, i < st.g.symbols.length →
          (st.g.symbols ++
            [(⟨some st.g.blocks.length, 0, 8, true, false⟩ : GSymbol)])[i]? =
            st.g.symbols[i]? :=
        fun i h => List.getElem?_append_left h
      have hlookStub : ∀ t s, alookup st.stubs t = some s →
          alookup ((T, st.g.symbols.length) :: st.stubs) t = some s :=
        fun t s h => alookup_cons_of_none hSHit h
      refine ⟨⟨?_, ?_, ?_, ?_, ?_, ?_, ?_, ?_, ?_, ?_, ?_, ?_, ?_, ?_, ?_⟩,
        ?_, fun t s h => h, hbl⟩
      · exact le_trans hInv.blocksLen (by simp)
      · exact le_trans hInv.symsLen (by simp)
      · exact fun i hi =>
          (hsy i (lt_of_lt_of_le hi hInv.symsLen)).trans (hInv.oldSyms i hi)
      · intro b hb
        have hb' := lt_of_lt_of_le hb hInv.blocksLen
        simp only [List.getD_eq_getElem?_getD, hbl b hb']
        have := hInv.oldBlocks b hb
        simpa [List.getD_eq_getElem?_getD] using this
      · exact fun b j hb hnd =>
          (edgeAt_congr b j (hbl b (lt_of_lt_of_le hb hInv.blocksLen))).trans
            (hInv.untouched b j hb hnd)
      · intro b j e0 hd he hg
        obtain ⟨s, hs1, hs2⟩ := hInv.processedGOT b j e0 hd he hg
        have hblt := edgeAt_some_lt hs2
        exact ⟨s, hs1, (edgeAt_congr b j (hbl b hblt)).trans hs2⟩
      · intro b j e0 hd he hk hu
        obtain ⟨s, hs1, hs2⟩ := hInv.processedBranch b j e0 hd he hk hu
        have hblt := edgeAt_some_lt hs2
        exact ⟨s, hlookStub _ _ hs1, (edgeAt_congr b j (hbl b hblt)).trans hs2⟩
      · intro b j e0 hd he hk hu
        have h2 := hInv.processedOther b j e0 hd he hk hu
        have hblt := edgeAt_some_lt h2
        exact (edgeAt_congr b j (hbl b hblt)).trans h2
      · intro t s h
        obtain ⟨hle, bid, hbid, hsym, hblk⟩ := hInv.gotMap t s h
        have hslt := (List.getElem?_eq_some_iff.mp hsym).1
        have hblt := (List.getElem?_eq_some_iff.mp hblk).1
        exact ⟨hle, bid, hbid, (hsy s hslt).trans hsym,
          (hbl bid hblt).trans hblk⟩
      · intro t s h
        rw [alookup_cons] at h
        split at h
        · rename_i hTt
          cases h
          subst hTt
          refine ⟨hInv.symsLen, st.g.blocks.length, gs, hInv.blocksLen, ?_,
            hGHit, ?_⟩
          · rw [List.getElem?_concat_length]
          · rw [List.getElem?_concat_length]
        · obtain ⟨hle, bid, gs', hbid, hsym, hgs, hblk⟩ := hInv.stubMap t s h
          have hslt := (List.getElem?_eq_some_iff.mp hsym).1
          have hblt := (List.getElem?_eq_some_iff.mp hblk).1
          exact ⟨hle, bid, gs', hbid, (hsy s hslt).trans hsym, hgs,
            (hbl bid hblt).trans hblk⟩
      · intro bid blk hge hsome
        by_cases hlt : bid < st.g.blocks.length
        · rw [hbl bid hlt] at hsome
          rcases hInv.newBlocks bid blk hge hsome with
            ⟨t, s, h1, h2, h3⟩ | ⟨t, s, gs', h1, h2, h3, h4⟩
          · have hslt := (List.getElem?_eq_some_iff.mp h2).1
            exact Or.inl ⟨t, s, h1, (hsy s hslt).trans h2, h3⟩
          · have hslt := (List.getElem?_eq_some_iff.mp h2).1
            exact Or.inr ⟨t, s, gs', hlookStub _ _ h1, (hsy s hslt).trans h2,
              h3, h4⟩
        · have hlen : bid < st.g.blocks.length + 1 := by
            have := (List.getElem?_eq_some_iff.mp hsome).1
            simpa using this
          have hbid : bid = st.g.blocks.length := by omega
          subst hbid
          rw [List.getElem?_concat_length] at hsome
          cases hsome
          refine Or.inr ⟨T, st.g.symbols.length, gs, ?_, ?_, hGHit, rfl⟩
          · rw [alookup_cons, if_pos rfl]
          · rw [List.getElem?_concat_length]
      · intro pr h
        rcases mem_ensureSectionList _ _ _ _ h with h1 | h1
        · exact hInv.sectionsGOT pr h1
        · simp at h1
      · intro pr h
        rcases mem_ensureSectionList _ _ _ _ h with h1 | h1
        · exact hInv.sectionsSTUBS pr h1
        · cases h1
          rfl
      · exact fun t s h =>
          mem_ensureSectionList_of_mem _ _ _ _ (hInv.gotSectionPresent t s h)
      · exact fun t s _ =>
          self_mem_ensureSectionList _ _ _ hInv.sectionsSTUBS
      · rw [alookup_cons, if_pos rfl]
    | none =>
      rw [createStub_miss hGHit]
      dsimp only
      have hbl : ∀ b', b' < st.g.blocks.length →
          (st.g.blocks ++ [stubBlockFor st.g.symbols.length,
            gotEntryBlockFor T])[b']? = st.g.blocks[b']? :=
        fun b' h => List.getElem?_append_left h
      have hsy : ∀ i, i < st.g.symbols.length →
          (st.g.symbols ++
            [(⟨some (st.g.blocks.length + 1), 0, 8, false, false⟩ : GSymbol),
             ⟨some st.g.blocks.length, 0, 8, true, false⟩])[i]? =
            st.g.symbols[i]? :=
        fun i h => List.getElem?_append_left h
      have hsyG : (st.g.symbols ++
          [(⟨some (st.g.blocks.length + 1), 0, 8, false, false⟩ : GSymbol),
           ⟨some st.g.blocks.length, 0, 8, true, false⟩])[st.g.symbols.length]? =
          some ⟨some (st.g.blocks.length + 1), 0, 8, false, false⟩ := by
        rw [List.getElem?_append_right (le_refl _)]
        simp
      have hsyS : (st.g.symbols ++
          [(⟨some (st.g.blocks.length + 1), 0, 8, false, false⟩ : GSymbol),
           ⟨some st.g.blocks.length, 0, 8, true, false⟩])[st.g.symbols.length + 1]? =
          some ⟨some st.g.blocks.length, 0, 8, true, false⟩ := by
        rw [List.getElem?_append_right (by omega)]
        simp
      have hblS : (st.g.blocks ++ [stubBlockFor st.g.symbols.length,
          gotEntryBlockFor T])[st.g.blocks.length]? =
          some (stubBlockFor st.g.symbols.length) := by
        rw [List.getElem?_append_right (le_refl _)]
        simp
      have hblG : (st.g.blocks ++ [stubBlockFor st.g.symbols.length,
          gotEntryBlockFor T])[st.g.blocks.length + 1]? =
          some (gotEntryBlockFor T) := by
        rw [List.getElem?_append_right (by omega)]
        simp
      have hlookStub : ∀ t s, alookup st.stubs t = some s →
          alookup ((T, st.g.symbols.length + 1) :: st.stubs) t = some s :=
        fun t s h => alookup_cons_of_none hSHit h
      have hlookGot : ∀ t s, alookup st.gotEntries t = some s →
          alookup ((T, st.g.symbols.length) :: st.gotEntries) t = some s :=
        fun t s h => alookup_cons_of_none hGHit h
      refine ⟨⟨?_, ?_, ?_, ?_, ?_, ?_, ?_, ?_, ?_, ?_, ?_, ?_, ?_, ?_, ?_⟩,
        ?_, hlookGot, hbl⟩
      · exact le_trans hInv.blocksLen (by simp)
      · exact le_trans hInv.symsLen (by simp)
      · exact fun i hi =>
          (hsy i (lt_of_lt_of_le hi hInv.symsLen)).trans (hInv.oldSyms i hi)
      · intro b hb
        have hb' := lt_of_lt_of_le hb hInv.blocksLen
        simp only [List.getD_eq_getElem?_getD, hbl b hb']
        have := hInv.oldBlocks b hb
        simpa [List.getD_eq_getElem?_getD] using this
      · exact fun b j hb hnd =>
          (edgeAt_congr b j (hbl b (lt_of_lt_of_le hb hInv.blocksLen))).trans
            (hInv.untouched b j hb hnd)
      · intro b j e0 hd he hg
        obtain ⟨s, hs1, hs2⟩ := hInv.processedGOT b j e0 hd he hg
        have hblt := edgeAt_some_lt hs2
        exact ⟨s, hlookGot _ _ hs1, (edgeAt_congr b j (hbl b hblt)).trans hs2⟩
      · intro b j e0 hd he hk hu
        obtain ⟨s, hs1, hs2⟩ := hInv.processedBranch b j e0 hd he hk hu
        have hblt := edgeAt_some_lt hs2
        exact ⟨s, hlookStub _ _ hs1, (edgeAt_congr b j (hbl b hblt)).trans hs2⟩
      · intro b j e0 hd he hk hu
        have h2 := hInv.processedOther b j e0 hd he hk hu
        have hblt := edgeAt_some_lt h2
        exact (edgeAt_congr b j (hbl b hblt)).trans h2
      · intro t s h
        rw [alookup_cons] at h
        split at h
        · rename_i hTt
          cases h
          subst hTt
          exact ⟨hInv.symsLen, st.g.blocks.length + 1,
            le_trans hInv.blocksLen (by omega), hsyG, hblG⟩
        · obtain ⟨hle, bid, hbid, hsym, hblk⟩ := hInv.gotMap t s h
          have hslt := (List.getElem?_eq_some_iff.mp hsym).1
          have hblt := (List.getElem?_eq_some_iff.mp hblk).1
          exact ⟨hle, bid, hbid, (hsy s hslt).trans hsym,
            (hbl bid hblt).trans hblk⟩
      · intro t s h
        rw [alookup_cons] at h
        split at h
        · rename_i hTt
          cases h
          subst hTt
          refine ⟨le_trans hInv.symsLen (by omega), st.g.blocks.length,
            st.g.symbols.length, hInv.blocksLen, hsyS, ?_, hblS⟩
          rw [alookup_cons, if_pos rfl]
        · obtain ⟨hle, bid, gs', hbid, hsym, hgs, hblk⟩ := hInv.stubMap t s h
          have hslt := (List.getElem?_eq_some_iff.mp hsym).1
          have hblt := (List.getElem?_eq_some_iff.mp hblk).1
          exact ⟨hle, bid, gs', hbid, (hsy s hslt).trans hsym,
            hlookGot _ _ hgs, (hbl bid hblt).trans hblk⟩
      · intro bid blk hge hsome
        by_cases hlt : bid < st.g.blocks.length
        · rw [hbl bid hlt] at hsome
          rcases hInv.newBlocks bid blk hge hsome with
            ⟨t, s, h1, h2, h3⟩ | ⟨t, s, gs', h1, h2, h3, h4⟩
          · have hslt := (List.getElem?_eq_some_iff.mp h2).1
            exact Or.inl ⟨t, s, hlookGot _ _ h1, (hsy s hslt).trans h2, h3⟩
          · have hslt := (List.getElem?_eq_some_iff.mp h2).1
            exact Or.inr ⟨t, s, gs', hlookStub _ _ h1, (hsy s hslt).trans h2,
              hlookGot _ _ h3, h4⟩
        · have hlen : bid < st.g.blocks.length + 2 := by
            have := (List.getElem?_eq_some_iff.mp hsome).1
            simpa using this
          rcases (by omega : bid = st.g.blocks.length ∨
              bid = st.g.blocks.length + 1) with hbid | hbid
          · subst hbid
            rw [hblS] at hsome
            cases hsome
            refine Or.inr ⟨T, st.g.symbols.length + 1, st.g.symbols.length,
              ?_, hsyS, ?_, rfl⟩
            · rw [alookup_cons, if_pos rfl]
            · rw [alookup_cons, if_pos rfl]
          · subst hbid
            rw [hblG] at hsome
            cases hsome
            refine Or.inl ⟨T, st.g.symbols.length, ?_, hsyG, rfl⟩
            rw [alookup_cons, if_pos rfl]
      · intro pr h
        rcases mem_ensureSectionList _ _ _ _ h with h1 | h1
        · rcases mem_ensureSectionList _ _ _ _ h1 with h2 | h2
          · exact hInv.sectionsGOT pr h2
          · simp at h2
        · cases h1
          rfl
      · intro pr h
        rcases mem_ensureSectionList _ _ _ _ h with h1 | h1
        · rcases mem_ensureSectionList _ _ _ _ h1 with h2 | h2
          · exact hInv.sectionsSTUBS pr h2
          · cases h2
            rfl
        · simp at h1
      · intro t s _
        refine self_mem_ensureSectionList _ _ _ ?_
        intro pr h
        rcases mem_ensureSectionList _ _ _ _ h with h1 | h1
        · exact hInv.sectionsGOT pr h1
        · simp at h1
      · intro t s _
        refine mem_ensureSectionList_of_mem _ _ _ _ ?_
        exact self_mem_ensureSectionList _ _ _ hInv.sectionsSTUBS
      · rw [alookup_cons, if_pos rfl]

theorem passInv_finishGOT {g0 : LinkGraph} {done : List (Nat × Nat)}
    {st1 : BuilderState} {b j : Nat} {e0 : GEdge} {s : Nat}
    (hInv : PassInv g0 done st1) (hnd : (b, j) ∉ done)
    (he0 : edgeAt g0 b j = some e0)
    (hcur : edgeAt st1.g b j = some e0)
    (hg : isGOTEdgeKind e0.kind = true)
    (hs : alookup st1.gotEntries e0.target = some s) :
    PassInv g0 ((b, j) :: done)
      { st1 with g := setEdge st1.g b j (fixGOTEdge e0 s) } := by
  have hbN : b < g0.blocks.length := edgeAt_some_lt he0
  refine ⟨?_, ?_, ?_, ?_, ?_, ?_, ?_, ?_, ?_, ?_, ?_, ?_, ?_, ?_, ?_⟩
  · rw [show ({ st1 with g := setEdge st1.g b j (fixGOTEdge e0 s) } :
      BuilderState).g.blocks.length = st1.g.blocks.length from
      setEdge_blocks_length _ _ _ _]
    exact hInv.blocksLen
  · rw [show ({ st1 with g := setEdge st1.g b j (fixGOTEdge e0 s) } :
      BuilderState).g.symbols = st1.g.symbols from setEdge_symbols _ _ _ _]
    exact hInv.symsLen
  · intro i hi
    rw [show ({ st1 with g := setEdge st1.g b j (fixGOTEdge e0 s) } :
      BuilderState).g.symbols = st1.g.symbols from setEdge_symbols _ _ _ _]
    exact hInv.oldSyms i hi
  · intro b' hb'
    have h1 := setEdge_block_shape st1.g b j (fixGOTEdge e0 s) b'
    have h2 := hInv.oldBlocks b' hb'
    exact ⟨h1.1.trans h2.1, h1.2.trans h2.2⟩
  · intro b' j' hb' hnd'
    have hne : ¬(b' = b ∧ j' = j) := by
      intro ⟨h1, h2⟩
      exact hnd' (h1 ▸ h2 ▸ List.mem_cons_self _ _)
    rw [edgeAt_setEdge_ne _ hne]
    exact hInv.untouched b' j' hb' (fun h => hnd' (List.mem_cons_of_mem _ h))
  · intro b' j' e0' hd he' hg'
    rcases List.mem_cons.mp hd with heq | hd
    · cases heq
      rw [he0] at he'
      cases he'
      exact ⟨s, hs, edgeAt_setEdge_self _ hcur⟩
    · obtain ⟨s', h1, h2⟩ := hInv.processedGOT b' j' e0' hd he' hg'
      have hne : ¬(b' = b ∧ j' = j) := by
        intro ⟨hh1, hh2⟩
        exact hnd (hh1 ▸ hh2 ▸ hd)
      exact ⟨s', h1, (edgeAt_setEdge_ne _ hne).trans h2⟩
  · intro b' j' e0' hd he' hk hu
    rcases List.mem_cons.mp hd with heq | hd
    · cases heq
      rw [he0] at he'
      cases he'
      exact absurd hk (got_kind_ne_branch hg)
    · obtain ⟨s', h1, h2⟩ := hInv.processedBranch b' j' e0' hd he' hk hu
      have hne : ¬(b' = b ∧ j' = j) := by
        intro ⟨hh1, hh2⟩
        exact hnd (hh1 ▸ hh2 ▸ hd)
      exact ⟨s', h1, (edgeAt_setEdge_ne _ hne).trans h2⟩
  · intro b' j' e0' hd he' hk hu
    rcases List.mem_cons.mp hd with heq | hd
    · cases heq
      rw [he0] at he'
      cases he'
      rw [hg] at hk
      cases hk
    · have h2 := hInv.processedOther b' j' e0' hd he' hk hu
      have hne : ¬(b' = b ∧ j' = j) := by
        intro ⟨hh1, hh2⟩
        exact hnd (hh1 ▸ hh2 ▸ hd)
      exact (edgeAt_setEdge_ne _ hne).trans h2
  · intro t s' h
    obtain ⟨hle, bid, hbid, hsym, hblk⟩ := hInv.gotMap t s' h
    have hne : bid ≠ b := by omega
    rw [show ({ st1 with g := setEdge st1.g b j (fixGOTEdge e0 s) } :
      BuilderState).g.symbols = st1.g.symbols from setEdge_symbols _ _ _ _]
    exact ⟨hle, bid, hbid, hsym, (blocks_setEdge_ne _ _ _ _ _ hne).trans hblk⟩
  · intro t s' h
    obtain ⟨hle, bid, gs, hbid, hsym, hgs, hblk⟩ := hInv.stubMap t s' h
    have hne : bid ≠ b := by omega
    rw [show ({ st1 with g := setEdge st1.g b j (fixGOTEdge e0 s) } :
      BuilderState).g.symbols = st1.g.symbols from setEdge_symbols _ _ _ _]
    exact ⟨hle, bid, gs, hbid, hsym, hgs,
      (blocks_setEdge_ne _ _ _ _ _ hne).trans hblk⟩
  · intro bid blk hge hsome
    have hne : bid ≠ b := by omega
    rw [blocks_setEdge_ne _ _ _ _ _ hne] at hsome
    rw [show ({ st1 with g := setEdge st1.g b j (fixGOTEdge e0 s) } :
      BuilderState).g.symbols = st1.g.symbols from setEdge_symbols _ _ _ _]
    exact hInv.newBlocks bid blk hge hsome
  · intro pr h
    rw [setEdge_sections] at h
    exact hInv.sectionsGOT pr h
  · intro pr h
    rw [setEdge_sections] at h
    exact hInv.sectionsSTUBS pr h
  · intro t s' h
    rw [show ({ st1 with g := setEdge st1.g b j (fixGOTEdge e0 s) } :
      BuilderState).g.sections = st1.g.sections from setEdge_sections _ _ _ _]
    exact hInv.gotSectionPresent t s' h
  · intro t s' h
    rw [show ({ st1 with g := setEdge st1.g b j (fixGOTEdge e0 s) } :
      BuilderState).g.sections = st1.g.sections from setEdge_sections _ _ _ _]
    exact hInv.stubSectionPresent t s' h

theorem passInv_finishBranch {g0 : LinkGraph} {done : List (Nat × Nat)}
    {st1 : BuilderState} {b j : Nat} {e0 : GEdge} {s : Nat}
    (hInv : PassInv g0 done st1) (hnd : (b, j) ∉ done)
    (he0 : edgeAt g0 b j = some e0)
    (hcur : edgeAt st1.g b j = some e0)
    (hk0 : e0.kind = Branch26)
    (hu0 : symIsDefined g0 e0.target = false)
    (hs : alookup st1.stubs e0.target = some s) :
    PassInv g0 ((b, j) :: done)
      { st1 with g := setEdge st1.g b j { e0 with target := s } } := by
  have hbN : b < g0.blocks.length := edgeAt_some_lt he0
  refine ⟨?_, ?_, ?_, ?_, ?_, ?_, ?_, ?_, ?_, ?_, ?_, ?_, ?_, ?_, ?_⟩
  · rw [show ({ st1 with g := setEdge st1.g b j { e0 with target := s } } :
      BuilderState).g.blocks.length = st1.g.blocks.length from
      setEdge_blocks_length _ _ _ _]
    exact hInv.blocksLen
  · rw [show ({ st1 with g := setEdge st1.g b j { e0 with target := s } } :
      BuilderState).g.symbols = st1.g.symbols from setEdge_symbols _ _ _ _]
    exact hInv.symsLen
  · intro i hi
    rw [show ({ st1 with g := setEdge st1.g b j { e0 with target := s } } :
      BuilderState).g.symbols = st1.g.symbols from setEdge_symbols _ _ _ _]
    exact hInv.oldSyms i hi
  · intro b' hb'
    have h1 := setEdge_block_shape st1.g b j { e0 with target := s } b'
    have h2 := hInv.oldBlocks b' hb'
    exact ⟨h1.1.trans h2.1, h1.2.trans h2.2⟩
  · intro b' j' hb' hnd'
    have hne : ¬(b' = b ∧ j' = j) := by
      intro ⟨h1, h2⟩
      exact hnd' (h1 ▸ h2 ▸ List.mem_cons_self _ _)
    rw [edgeAt_setEdge_ne _ hne]
    exact hInv.untouched b' j' hb' (fun h => hnd' (List.mem_cons_of_mem _ h))
  · intro b' j' e0' hd he' hg'
    rcases List.mem_cons.mp hd with heq | hd
    · cases heq
      rw [he0] at he'
      cases he'
      rw [hk0] at hg'
      cases hg'
    · obtain ⟨s', h1, h2⟩ := hInv.processedGOT b' j' e0' hd he' hg'
      have hne : ¬(b' = b ∧ j' = j) := by
        intro ⟨hh1, hh2⟩
        exact hnd (hh1 ▸ hh2 ▸ hd)
      exact ⟨s', h1, (edgeAt_setEdge_ne _ hne).trans h2⟩
  · intro b' j' e0' hd he' hk hu
    rcases List.mem_cons.mp hd with heq | hd
    · cases heq
      rw [he0] at he'
      cases he'
      exact ⟨s, hs, edgeAt_setEdge_self _ hcur⟩
    · obtain ⟨s', h1, h2⟩ := hInv.processedBranch b' j' e0' hd he' hk hu
      have hne : ¬(b' = b ∧ j' = j) := by
        intro ⟨hh1, hh2⟩
        exact hnd (hh1 ▸ hh2 ▸ hd)
      exact ⟨s', h1, (edgeAt_setEdge_ne _ hne).trans h2⟩
  · intro b' j' e0' hd he' hk hu
    rcases List.mem_cons.mp hd with heq | hd
    · cases heq
      rw [he0] at he'
      cases he'
      rw [hu hk0] at hu0
      cases hu0
    · have h2 := hInv.processedOther b' j' e0' hd he' hk hu
      have hne : ¬(b' = b ∧ j' = j) := by
        intro ⟨hh1, hh2⟩
        exact hnd (hh1 ▸ hh2 ▸ hd)
      exact (edgeAt_setEdge_ne _ hne).trans h2
  · intro t s' h
    obtain ⟨hle, bid, hbid, hsym, hblk⟩ := hInv.gotMap t s' h
    have hne : bid ≠ b := by omega
    rw [show ({ st1 with g := setEdge st1.g b j { e0 with target := s } } :
      BuilderState).g.symbols = st1.g.symbols from setEdge_symbols _ _ _ _]
    exact ⟨hle, bid, hbid, hsym, (blocks_setEdge_ne _ _ _ _ _ hne).trans hblk⟩
  · intro t s' h
    obtain ⟨hle, bid, gs, hbid, hsym, hgs, hblk⟩ := hInv.stubMap t s' h
    have hne : bid ≠ b := by omega
    rw [show ({ st1 with g := setEdge st1.g b j { e0 with target := s } } :
      BuilderState).g.symbols = st1.g.symbols from setEdge_symbols _ _ _ _]
    exact ⟨hle, bid, gs, hbid, hsym, hgs,
      (blocks_setEdge_ne _ _ _ _ _ hne).trans hblk⟩
  · intro bid blk hge hsome
    have hne : bid ≠ b := by omega
    rw [blocks_setEdge_ne _ _ _ _ _ hne] at hsome
    rw [show ({ st1 with g := setEdge st1.g b j { e0 with target := s } } :
      BuilderState).g.symbols = st1.g.symbols from setEdge_symbols _ _ _ _]
    exact hInv.newBlocks bid blk hge hsome
  · intro pr h
    rw [setEdge_sections] at h
    exact hInv.sectionsGOT pr h
  · intro pr h
    rw [setEdge_sections] at h
    exact hInv.sectionsSTUBS pr h
  · intro t s' h
    rw [show ({ st1 with g := setEdge st1.g b j { e0 with target := s } } :
      BuilderState).g.sections = st1.g.sections from setEdge_sections _ _ _ _]
    exact hInv.gotSectionPresent t s' h
  · intro t s' h
    rw [show ({ st1 with g := setEdge st1.g b j { e0 with target := s } } :
      BuilderState).g.sections = st1.g.sections from setEdge_sections _ _ _ _]
    exact hInv.stubSectionPresent t s' h


theorem passInv_finishOther {g0 : LinkGraph} {done : List (Nat × Nat)}
    {st : BuilderState} {b j : Nat} {e0 : GEdge}
    (hInv : PassInv g0 done st) (_hnd : (b, j) ∉ done)
    (he0 : edgeAt g0 b j = some e0)
    (hcur : edgeAt st.g b j = some e0)
    (hg : isGOTEdgeKind e0.kind = false)
    (hu0 : e0.kind = Branch26 → symIsDefined g0 e0.target = true) :
    PassInv g0 ((b, j) :: done) st := by
  refine ⟨hInv.blocksLen, hInv.symsLen, hInv.oldSyms, hInv.oldBlocks,
    ?_, ?_, ?_, ?_, hInv.gotMap, hInv.stubMap, hInv.newBlocks,
    hInv.sectionsGOT, hInv.sectionsSTUBS, hInv.gotSectionPresent,
    hInv.stubSectionPresent⟩
  · exact fun b' j' hb' hnd' =>
      hInv.untouched b' j' hb' (fun h => hnd' (List.mem_cons_of_mem _ h))
  · intro b' j' e0' hd he' hg'
    rcases List.mem_cons.mp hd with heq | hd
    · cases heq
      rw [he0] at he'
      cases he'
      rw [hg] at hg'
      cases hg'
    · exact hInv.processedGOT b' j' e0' hd he' hg'
  · intro b' j' e0' hd he' hk hu
    rcases List.mem_cons.mp hd with heq | hd
    · cases heq
      rw [he0] at he'
      cases he'
      rw [hu0 hk] at hu
      cases hu
    · exact hInv.processedBranch b' j' e0' hd he' hk hu
  · intro b' j' e0' hd he' hk hu
    rcases List.mem_cons.mp hd with heq | hd
    · cases heq
      rw [he0] at he'
      cases he'
      exact hcur
    · exact hInv.processedOther b' j' e0' hd he' hk hu

theorem stepPair_inv {g0 : LinkGraph} (hPre : PassPre g0)
    {done : List (Nat × Nat)} {st : BuilderState} {p : Nat × Nat}
    (hb : p.1 < g0.blocks.length)
    (hj : p.2 < (g0.blocks.getD p.1 default).edges.length)
    (hnd : p ∉ done)
    (hInv : PassInv g0 done st) : PassInv g0 (p :: done) (stepPair st p) := by
  obtain ⟨b, j⟩ := p
  obtain ⟨e0, he0⟩ := edgeAt_some_of_lt hb hj
  have hcur : edgeAt st.g b j = some e0 :=
    (hInv.untouched b j hb hnd).trans he0
  have ht : e0.target < g0.symbols.length := by
    have hsome : g0.blocks[b]? = some (g0.blocks.getD b default) := by
      simp [List.getD_eq_getElem?_getD, List.getElem?_eq_getElem hb]
    have hmemB : g0.blocks.getD b default ∈ g0.blocks :=
      List.getElem?_mem hsome
    have hmemE : e0 ∈ (g0.blocks.getD b default).edges := by
      unfold edgeAt at he0
      rw [hsome] at he0
      exact List.getElem?_mem he0
    exact hPre.2.2 _ hmemB e0 hmemE
  unfold stepPair
  rw [hcur]
  dsimp only
  by_cases hg : isGOTEdgeKind e0.kind = true
  · rw [if_pos hg]
    obtain ⟨hInv1, hlook, _, hblocks⟩ := getGOTEntrySymbol_inv hInv e0.target
    have hblt : b < st.g.blocks.length := edgeAt_some_lt hcur
    have hcur1 : edgeAt (getGOTEntrySymbol st e0.target).1.g b j = some e0 :=
      (edgeAt_congr b j (hblocks b hblt)).trans hcur
    exact passInv_finishGOT hInv1 hnd he0 hcur1 hg hlook
  · rw [if_neg hg]
    by_cases hx : isExternalBranchEdge st.g e0 = true
    · rw [if_pos hx]
      have hk : e0.kind = Branch26 := by
        unfold isExternalBranchEdge at hx
        rcases Bool.and_eq_true_iff.mp hx with ⟨h1, _⟩
        exact beq_iff_eq.mp h1
      have hu : symIsDefined g0 e0.target = false := by
        unfold isExternalBranchEdge at hx
        rcases Bool.and_eq_true_iff.mp hx with ⟨_, h2⟩
        have hst : symIsDefined st.g e0.target = false := by
          cases hsd : symIsDefined st.g e0.target
          · rfl
          · rw [hsd] at h2; cases h2
        rw [← symIsDefined_stable hInv ht]
        exact hst
      obtain ⟨hInv1, hlook, _, hblocks⟩ := getStubSymbol_inv hInv e0.target
      have hblt : b < st.g.blocks.length := edgeAt_some_lt hcur
      have hcur1 : edgeAt (getStubSymbol st e0.target).1.g b j = some e0 :=
        (edgeAt_congr b j (hblocks b hblt)).trans hcur
      exact passInv_finishBranch hInv1 hnd he0 hcur1 hk hu hlook
    · rw [if_neg hx]
      refine passInv_finishOther hInv hnd he0 hcur (by simpa using hg) ?_
      intro hk
      by_contra hdef
      have hdef' : symIsDefined g0 e0.target = false := by
        cases hsd : symIsDefined g0 e0.target
        · rfl
        · exact absurd hsd hdef
      apply hx
      unfold isExternalBranchEdge
      rw [hk, symIsDefined_stable hInv ht, hdef']
      rfl

theorem passInv_init {g0 : LinkGraph} (hPre : PassPre g0) :
    PassInv g0 [] ⟨g0, [], []⟩ := by
  refine ⟨le_refl _, le_refl _, fun _ _ => rfl, fun _ _ => ⟨rfl, rfl⟩,
    fun _ _ _ _ => rfl, ?_, ?_, ?_, ?_, ?_, ?_, ?_, ?_, ?_, ?_⟩
  · intro b j e0 hd
    cases hd
  · intro b j e0 hd
    cases hd
  · intro b j e0 hd
    cases hd
  · intro t s h
    simp [alookup] at h
  · intro t s h
    simp [alookup] at h
  · intro bid blk hge hsome
    rw [List.getElem?_eq_none hge] at hsome
    cases hsome
  · intro pr h
    exact absurd rfl (hPre.2.1 _ h).1
  · intro pr h
    exact absurd rfl (hPre.2.1 _ h).2
  · intro t s h
    simp [alookup] at h
  · intro t s h
    simp [alookup] at h

theorem foldl_stepPair_inv {g0 : LinkGraph} (hPre : PassPre g0) :
    ∀ (pairs : List (Nat × Nat)) (done : List (Nat × Nat)) (st : BuilderState),
    (∀ p ∈ pairs, p.1 < g0.blocks.length ∧
      p.2 < (g0.blocks.getD p.1 default).edges.length ∧ p ∉ done) →
    pairs.Nodup →
    PassInv g0 done st →
    ∃ done2, (∀ q, q ∈ done2 ↔ q ∈ pairs ∨ q ∈ done) ∧
      PassInv g0 done2 (pairs.foldl stepPair st) := by
  intro pairs
  induction pairs with
  | nil =>
    intro done st _ _ hInv
    exact ⟨done, fun q => by simp, hInv⟩
  | cons p ps ih =>
    intro done st hv hnd hInv
    have hp := hv p (List.mem_cons_self _ _)
    have hstep : PassInv g0 (p :: done) (stepPair st p) :=
      stepPair_inv hPre hp.1 hp.2.1 hp.2.2 hInv
    obtain ⟨done2, hchar, hinv2⟩ := ih (p :: done) (stepPair st p)
      (fun q hq => ⟨(hv q (List.mem_cons_of_mem _ hq)).1,
        (hv q (List.mem_cons_of_mem _ hq)).2.1, by
          intro hmem
          rcases List.mem_cons.mp hmem with heq | hmem2
          · subst heq
            exact (List.nodup_cons.mp hnd).1 hq
          · exact (hv q (List.mem_cons_of_mem _ hq)).2.2 hmem2⟩)
      (List.nodup_cons.mp hnd).2 hstep
    refine ⟨done2, fun q => ?_, hinv2⟩
    rw [hchar q]
    simp [List.mem_cons]
    tauto

theorem mem_edgePairs {g : LinkGraph} (p : Nat × Nat) :
    p ∈ edgePairs g ↔ p.1 < g.blocks.length ∧
      p.2 < (g.blocks.getD p.1 default).edges.length := by
  obtain ⟨b, j⟩ := p
  unfold edgePairs
  simp only [List.mem_flatMap, List.mem_map, List.mem_range]
  constructor
  · rintro ⟨b', hb', j', hj', heq⟩
    cases heq
    exact ⟨hb', hj'⟩
  · rintro ⟨hb, hj⟩
    exact ⟨b, hb, j, hj, rfl⟩

theorem edgePairs_nodup (g : LinkGraph) : (edgePairs g).Nodup := by
  unfold edgePairs
  rw [List.nodup_flatMap]
  constructor
  · intro b _
    refine List.Nodup.map ?_ (List.nodup_range _)
    intro j1 j2 h
    simpa using h
  · refine List.Pairwise.imp ?_ (List.pairwise_lt_range _)
    intro a b hlt
    intro x hxa hxb
    simp only [List.mem_map, List.mem_range] at hxa hxb
    obtain ⟨j1, _, h1⟩ := hxa
    obtain ⟨j2, _, h2⟩ := hxb
    rw [← h1] at h2
    cases h2
    omega

theorem runGOTAndStubs_inv {g0 : LinkGraph} (hPre : PassPre g0) :
    ∃ done2, (∀ q : Nat × Nat, q ∈ done2 ↔ q.1 < g0.blocks.length ∧
        q.2 < (g0.blocks.getD q.1 default).edges.length) ∧
      PassInv g0 done2 (runGOTAndStubs g0) := by
  obtain ⟨done2, hchar, hinv⟩ := foldl_stepPair_inv hPre (edgePairs g0) []
    ⟨g0, [], []⟩
    (fun p hp => ⟨((mem_edgePairs p).mp hp).1, ((mem_edgePairs p).mp hp).2,
      by simp⟩)
    (edgePairs_nodup g0) (passInv_init hPre)
  refine ⟨done2, fun q => ?_, hinv⟩
  rw [hchar q]
  simp [mem_edgePairs]

/-- A target symbol is reached by at least one GOT-kind edge of the
original graph. -/
def gotReached (g : LinkGraph) (t : Nat) : Prop :=
  ∃ b ∈ g.blocks, ∃ e ∈ b.edges, isGOTEdgeKind e.kind = true ∧ e.target = t

theorem fixGOTEdge_got {e0 : GEdge} (hg : isGOTEdgeKind e0.kind = true)
    (s : Nat) :
    fixGOTEdge e0 s = ⟨(if e0.kind = PointerToGOT then Delta32 else e0.kind),
      e0.offset, s, e0.addend⟩ := by
  rcases e0 with ⟨k, off, t, a⟩
  unfold isGOTEdgeKind at hg
  unfold fixGOTEdge
  dsimp only at hg ⊢
  cases k <;> simp_all

/-- Every edge of the final graph is either an edge of a new GOT/stub
block, or the processed image of an original edge. -/
theorem final_edge_classify {g0 : LinkGraph} {done2 : List (Nat × Nat)}
    (hchar : ∀ q : Nat × Nat, q ∈ done2 ↔ q.1 < g0.blocks.length ∧
      q.2 < (g0.blocks.getD q.1 default).edges.length)
    (hinv : PassInv g0 done2 (runGOTAndStubs g0))
    {bid : Nat} {blk : GBlock}
    (hblk : (runGOTAndStubs g0).g.blocks[bid]? = some blk)
    {j : Nat} {e : GEdge} (hej : blk.edges[j]? = some e) :
    (g0.blocks.length ≤ bid ∧
      ((∃ t, blk = gotEntryBlockFor t) ∨ (∃ gs, blk = stubBlockFor gs))) ∨
    (bid < g0.blocks.length ∧ ∃ e0, edgeAt g0 bid j = some e0 ∧
      ((isGOTEdgeKind e0.kind = true ∧ ∃ s bid2, e = fixGOTEdge e0 s ∧
          (runGOTAndStubs g0).g.symbols[s]? =
            some ⟨some bid2, 0, 8, false, false⟩) ∨
       (e0.kind = Branch26 ∧ ∃ s bid2, e = { e0 with target := s } ∧
          (runGOTAndStubs g0).g.symbols[s]? =
            some ⟨some bid2, 0, 8, true, false⟩) ∨
       (isGOTEdgeKind e0.kind = false ∧
         (e0.kind = Branch26 → symIsDefined g0 e0.target = true) ∧ e = e0))) := by
  by_cases hbid : bid < g0.blocks.length
  · right
    refine ⟨hbid, ?_⟩
    have hD : (runGOTAndStubs g0).g.blocks.getD bid default = blk :=
      getD_eq_of_getElem? hblk
    have hjlen : j < blk.edges.length := (List.getElem?_eq_some_iff.mp hej).1
    have hjlen0 : j < (g0.blocks.getD bid default).edges.length := by
      have := (hinv.oldBlocks bid hbid).2
      rw [hD] at this
      omega
    have hdone : (bid, j) ∈ done2 := (hchar (bid, j)).mpr ⟨hbid, hjlen0⟩
    obtain ⟨e0, he0⟩ := edgeAt_some_of_lt hbid hjlen0
    have hcur : edgeAt (runGOTAndStubs g0).g bid j = some e := by
      unfold edgeAt
      rw [hblk]
      exact hej
    refine ⟨e0, he0, ?_⟩
    by_cases hg : isGOTEdgeKind e0.kind = true
    · left
      obtain ⟨s, hlook, hedge⟩ := hinv.processedGOT bid j e0 hdone he0 hg
      rw [hcur] at hedge
      cases hedge
      obtain ⟨_, bid2, _, hsym, _⟩ := hinv.gotMap _ _ hlook
      exact ⟨hg, s, bid2, rfl, hsym⟩
    · by_cases hbr : e0.kind = Branch26 ∧ symIsDefined g0 e0.target = false
      · right; left
        obtain ⟨s, hlook, hedge⟩ :=
          hinv.processedBranch bid j e0 hdone he0 hbr.1 hbr.2
        rw [hcur] at hedge
        cases hedge
        obtain ⟨_, bid2, gs, _, hsym, _, _⟩ := hinv.stubMap _ _ hlook
        exact ⟨hbr.1, s, bid2, rfl, hsym⟩
      · right; right
        have hu : e0.kind = Branch26 → symIsDefined g0 e0.target = true := by
          intro hk
          cases hsd : symIsDefined g0 e0.target
          · exact absurd ⟨hk, hsd⟩ hbr
          · rfl
        have h2 := hinv.processedOther bid j e0 hdone he0 (by simpa using hg) hu
        rw [hcur] at h2
        cases h2
        exact ⟨by simpa using hg, hu, rfl⟩
  · left
    refine ⟨by omega, ?_⟩
    rcases hinv.newBlocks bid blk (by omega) hblk with
      ⟨t, s, _, _, h3⟩ | ⟨t, s, gs, _, _, _, h4⟩
    · exact Or.inl ⟨t, h3⟩
    · exact Or.inr ⟨gs, h4⟩

theorem fixGOTEdge_kind_ne_ptog {e0 : GEdge}
    (hg : isGOTEdgeKind e0.kind = true) (s : Nat) :
    (fixGOTEdge e0 s).kind ≠ PointerToGOT := by
  rcases e0 with ⟨k, off, t, a⟩
  unfold isGOTEdgeKind at hg
  dsimp only at hg
  cases k <;> simp_all [fixGOTEdge]

theorem kind_ne_ptog_of_not_got {k : MachOARM64RelocationKind}
    (h : isGOTEdgeKind k = false) : k ≠ PointerToGOT := by
  cases k <;> simp_all [isGOTEdgeKind]

theorem final_old_block_section {g0 : LinkGraph} {done2 : List (Nat × Nat)}
    (hPre : PassPre g0) (hinv : PassInv g0 done2 (runGOTAndStubs g0))
    {bid : Nat} {blk : GBlock}
    (h : (runGOTAndStubs g0).g.blocks[bid]? = some blk)
    (hbid : bid < g0.blocks.length) :
    blk.sectionName ≠ "$__GOT" ∧ blk.sectionName ≠ "$__STUBS" := by
  have hD := getD_eq_of_getElem? h
  have hsec := (hinv.oldBlocks bid hbid).1
  rw [hD] at hsec
  have hmem : g0.blocks.getD bid default ∈ g0.blocks := by
    have hx : g0.blocks[bid]? = some (g0.blocks.getD bid default) := by
      simp [List.getD_eq_getElem?_getD, List.getElem?_eq_getElem hbid]
    exact List.getElem?_mem hx
  have hp := hPre.1 _ hmem
  rw [hsec]
  exact hp

theorem gotEntryBlock_lookup {g0 : LinkGraph} {done2 : List (Nat × Nat)}
    (hPre : PassPre g0) (hinv : PassInv g0 done2 (runGOTAndStubs g0))
    {t bid : Nat}
    (h : (runGOTAndStubs g0).g.blocks[bid]? = some (gotEntryBlockFor t)) :
    ∃ s, alookup (runGOTAndStubs g0).gotEntries t = some s ∧
      (runGOTAndStubs g0).g.symbols[s]? = some ⟨some bid, 0, 8, false, false⟩ := by
  by_cases hbid : bid < g0.blocks.length
  · exact absurd rfl (final_old_block_section hPre hinv h hbid).1
  · rcases hinv.newBlocks bid _ (by omega) h with
      ⟨t', s, h1, h2, h3⟩ | ⟨t', s, gs, h1, h2, h3, h4⟩
    · have ht : t = t' := gotEntryBlockFor_inj h3
      subst ht
      exact ⟨s, h1, h2⟩
    · exact absurd h4 (gotBlock_ne_stubBlock t gs)

theorem gotEntryBlock_unique {g0 : LinkGraph} {done2 : List (Nat × Nat)}
    (hPre : PassPre g0) (hinv : PassInv g0 done2 (runGOTAndStubs g0))
    {t bid1 bid2 : Nat}
    (h1 : (runGOTAndStubs g0).g.blocks[bid1]? = some (gotEntryBlockFor t))
    (h2 : (runGOTAndStubs g0).g.blocks[bid2]? = some (gotEntryBlockFor t)) :
    bid1 = bid2 := by
  obtain ⟨s1, hl1, hs1⟩ := gotEntryBlock_lookup hPre hinv h1
  obtain ⟨s2, hl2, hs2⟩ := gotEntryBlock_lookup hPre hinv h2
  rw [hl1] at hl2
  cases hl2
  rw [hs1] at hs2
  cases hs2
  rfl

/-- The post-state property claimed by C6, packaged so the claim theorem
and its witness share one statement: for every original target reached
by a GOT-kind edge there is exactly one GOT entry of the exact
`createGOTEntry` shape, every GOT-kind edge of the original graph is
retargeted to such an entry's symbol with `GOTPage21`/`GOTPageOffset12`
keeping their kind and `PointerToGOT` rewritten to `Delta32`, and no
`PointerToGOT` edge remains anywhere in the final graph. -/
def GotPassPost (g0 : LinkGraph) : Prop :=
  (∀ t, gotReached g0 t →
    (∃ bid : Nat,
      (runGOTAndStubs g0).g.blocks[bid]? = some (gotEntryBlockFor t)) ∧
    (∀ (bid1 bid2 : Nat),
      (runGOTAndStubs g0).g.blocks[bid1]? = some (gotEntryBlockFor t) →
      (runGOTAndStubs g0).g.blocks[bid2]? = some (gotEntryBlockFor t) →
      bid1 = bid2) ∧
    (∀ (bid : Nat) (blk : GBlock), (runGOTAndStubs g0).g.blocks[bid]? = some blk →
      blk.sectionName = "$__GOT" → (∃ e ∈ blk.edges, e.target = t) →
      blk = gotEntryBlockFor t)) ∧
  (∀ b j e0, edgeAt g0 b j = some e0 → isGOTEdgeKind e0.kind = true →
    ∃ s bid, edgeAt (runGOTAndStubs g0).g b j =
        some ⟨(if e0.kind = PointerToGOT then Delta32 else e0.kind),
          e0.offset, s, e0.addend⟩ ∧
      (runGOTAndStubs g0).g.symbols[s]? = some ⟨some bid, 0, 8, false, false⟩ ∧
      (runGOTAndStubs g0).g.blocks[bid]? =
        some (gotEntryBlockFor e0.target)) ∧
  (∀ b ∈ (runGOTAndStubs g0).g.blocks, ∀ e ∈ b.edges, e.kind ≠ PointerToGOT)

/-- **C6.** After the GOT-and-stubs pass (on a graph without pre-existing
synthetic sections and with valid edge targets), the GOT invariants of
`GotPassPost` hold. -/
theorem got_and_stubs_got_correct (g0 : LinkGraph) (hPre : PassPre g0) :
    GotPassPost g0 := by
  obtain ⟨done2, hchar, hinv⟩ := runGOTAndStubs_inv hPre
  unfold GotPassPost
  refine ⟨?_, ?_, ?_⟩
  · rintro t ⟨b, hbmem, e, hemem, hkind, htar⟩
    obtain ⟨bidx, hbidx, hbeq⟩ := List.getElem_of_mem hbmem
    obtain ⟨jidx, hjidx, hjeq⟩ := List.getElem_of_mem hemem
    have hD : g0.blocks.getD bidx default = b := by
      simp [List.getD_eq_getElem?_getD, List.getElem?_eq_getElem hbidx, hbeq]
    have he0 : edgeAt g0 bidx jidx = some e := by
      unfold edgeAt
      rw [List.getElem?_eq_getElem hbidx]
      dsimp only
      rw [hbeq, List.getElem?_eq_getElem hjidx, hjeq]
    have hdone : (bidx, jidx) ∈ done2 := by
      rw [hchar]
      refine ⟨hbidx, ?_⟩
      rw [hD]
      exact hjidx
    obtain ⟨s, hlook, _⟩ := hinv.processedGOT bidx jidx e hdone he0 hkind
    rw [htar] at hlook
    obtain ⟨_, bid, _, hsym, hblk⟩ := hinv.gotMap _ _ hlook
    refine ⟨⟨bid, hblk⟩, fun bid1 bid2 ha hb =>
      gotEntryBlock_unique hPre hinv ha hb, ?_⟩
    rintro bid' blk hblk' hsec ⟨e', hemem', htar'⟩
    by_cases hbid' : bid' < g0.blocks.length
    · exact absurd hsec (final_old_block_section hPre hinv hblk' hbid').1
    · rcases hinv.newBlocks bid' blk (by omega) hblk' with
        ⟨t', s', h1, h2, h3⟩ | ⟨t', s', gs, h1, h2, h3, h4⟩
      · subst h3
        have : e' = ⟨Pointer64, 0, t', 0⟩ := by
          simpa [gotEntryBlockFor, NullGOTEntryContent] using hemem'
        rw [this] at htar'
        dsimp at htar'
        rw [htar']
      · subst h4
        simp [stubBlockFor] at hsec
  · intro b j e0 he0 hg
    have hbN : b < g0.blocks.length := edgeAt_some_lt he0
    have hjN : j < (g0.blocks.getD b default).edges.length := by
      unfold edgeAt at he0
      cases hb2 : g0.blocks[b]? with
      | none => rw [hb2] at he0; cases he0
      | some blk =>
        rw [hb2] at he0
        have := (List.getElem?_eq_some_iff.mp he0).1
        rw [getD_eq_of_getElem? hb2]
        exact this
    have hdone : (b, j) ∈ done2 := (hchar (b, j)).mpr ⟨hbN, hjN⟩
    obtain ⟨s, hlook, hedge⟩ := hinv.processedGOT b j e0 hdone he0 hg
    obtain ⟨_, bid, _, hsym, hblk⟩ := hinv.gotMap _ _ hlook
    refine ⟨s, bid, ?_, hsym, hblk⟩
    rw [hedge, fixGOTEdge_got hg]
  · intro b hbmem e hemem
    obtain ⟨bidx, hbidx, hbeq⟩ := List.getElem_of_mem hbmem
    obtain ⟨jidx, hjidx, hjeq⟩ := List.getElem_of_mem hemem
    have hblk : (runGOTAndStubs g0).g.blocks[bidx]? = some b := by
      rw [List.getElem?_eq_getElem hbidx, hbeq]
    have hej : b.edges[jidx]? = some e := by
      rw [List.getElem?_eq_getElem hjidx, hjeq]
    rcases final_edge_classify hchar hinv hblk hej with
      ⟨_, ⟨t, h3⟩ | ⟨gs, h3⟩⟩ | ⟨_, e0, _, hcase⟩
    · subst h3
      have : e = ⟨Pointer64, 0, t, 0⟩ := by
        simpa [gotEntryBlockFor, NullGOTEntryContent] using hemem
      rw [this]
      simp
    · subst h3
      have : e = ⟨LDRLiteral19, 0, gs, 0⟩ := by
        simpa [stubBlockFor, StubContent] using hemem
      rw [this]
      simp
    · rcases hcase with ⟨hg, s, _, heq, _⟩ | ⟨hk, s, _, heq, _⟩ |
        ⟨hg, _, heq⟩
      · rw [heq]
        exact fixGOTEdge_kind_ne_ptog hg _
      · rw [heq]
        dsimp only
        rw [hk]
        simp
      · rw [heq]
        exact kind_ne_ptog_of_not_got hg

theorem fixGOTEdge_kind_ne_branch {e0 : GEdge}
    (hg : isGOTEdgeKind e0.kind = true) (s : Nat) :
    (fixGOTEdge e0 s).kind ≠ Branch26 := by
  rcases e0 with ⟨k, off, t, a⟩
  unfold isGOTEdgeKind at hg
  dsimp only at hg
  cases k <;> simp_all [fixGOTEdge]

theorem stubBlockFor_inj {gs gs' : Nat}
    (h : stubBlockFor gs = stubBlockFor gs') : gs = gs' := by
  simpa [stubBlockFor] using h

theorem stubBlock_lookup {g0 : LinkGraph} {done2 : List (Nat × Nat)}
    (hPre : PassPre g0) (hinv : PassInv g0 done2 (runGOTAndStubs g0))
    {gs bid : Nat}
    (h : (runGOTAndStubs g0).g.blocks[bid]? = some (stubBlockFor gs)) :
    ∃ t s, alookup (runGOTAndStubs g0).stubs t = some s ∧
      (runGOTAndStubs g0).g.symbols[s]? = some ⟨some bid, 0, 8, true, false⟩ ∧
      alookup (runGOTAndStubs g0).gotEntries t = some gs := by
  by_cases hbid : bid < g0.blocks.length
  · exact absurd rfl (final_old_block_section hPre hinv h hbid).2
  · rcases hinv.newBlocks bid _ (by omega) h with
      ⟨t', s, h1, h2, h3⟩ | ⟨t', s, gs', h1, h2, h3, h4⟩
    · exact absurd h3.symm (gotBlock_ne_stubBlock t' gs)
    · have hg : gs' = gs := stubBlockFor_inj h4.symm
      subst hg
      exact ⟨t', s, h1, h2, h3⟩

/-- The post-state property claimed by C7: every original `Branch26` edge
to an undefined symbol is retargeted to a stub symbol whose block is the
exact `createStub` shape (content `10 00 00 58 00 02 1f d6`, one
`LDRLiteral19` edge at offset 0, addend 0, to the GOT entry symbol for
the original target) in the read+exec `$__STUBS` section; stubs are
unique per target; afterwards no `Branch26` edge targets an undefined
symbol. -/
def StubPassPost (g0 : LinkGraph) : Prop :=
  (∀ b j e0, edgeAt g0 b j = some e0 → e0.kind = Branch26 →
    symIsDefined g0 e0.target = false →
    ∃ (s bid gs gbid : Nat),
      edgeAt (runGOTAndStubs g0).g b j = some { e0 with target := s } ∧
      (runGOTAndStubs g0).g.symbols[s]? = some ⟨some bid, 0, 8, true, false⟩ ∧
      (runGOTAndStubs g0).g.blocks[bid]? = some (stubBlockFor gs) ∧
      (runGOTAndStubs g0).g.symbols[gs]? =
        some ⟨some gbid, 0, 8, false, false⟩ ∧
      (runGOTAndStubs g0).g.blocks[gbid]? =
        some (gotEntryBlockFor e0.target) ∧
      ("$__STUBS", MF_READ + MF_EXEC) ∈ (runGOTAndStubs g0).g.sections) ∧
  (∀ (bid1 bid2 gs1 gs2 gbid1 gbid2 t : Nat),
    (runGOTAndStubs g0).g.blocks[bid1]? = some (stubBlockFor gs1) →
    (runGOTAndStubs g0).g.symbols[gs1]? =
      some ⟨some gbid1, 0, 8, false, false⟩ →
    (runGOTAndStubs g0).g.blocks[gbid1]? = some (gotEntryBlockFor t) →
    (runGOTAndStubs g0).g.blocks[bid2]? = some (stubBlockFor gs2) →
    (runGOTAndStubs g0).g.symbols[gs2]? =
      some ⟨some gbid2, 0, 8, false, false⟩ →
    (runGOTAndStubs g0).g.blocks[gbid2]? = some (gotEntryBlockFor t) →
    bid1 = bid2) ∧
  (∀ pr, ("$__STUBS", pr) ∈ (runGOTAndStubs g0).g.sections →
    pr = MF_READ + MF_EXEC) ∧
  (∀ b ∈ (runGOTAndStubs g0).g.blocks, ∀ e ∈ b.edges, e.kind = Branch26 →
    symIsDefined (runGOTAndStubs g0).g e.target = true)

/-- **C7.** After the GOT-and-stubs pass (on a graph without pre-existing
synthetic sections and with valid edge targets), the stub invariants of
`StubPassPost` hold. -/
theorem got_and_stubs_stub_correct (g0 : LinkGraph) (hPre : PassPre g0) :
    StubPassPost g0 := by
  obtain ⟨done2, hchar, hinv⟩ := runGOTAndStubs_inv hPre
  unfold StubPassPost
  refine ⟨?_, ?_, hinv.sectionsSTUBS, ?_⟩
  · intro b j e0 he0 hbr hundef
    have hbN : b < g0.blocks.length := edgeAt_some_lt he0
    have hjN : j < (g0.blocks.getD b default).edges.length := by
      unfold edgeAt at he0
      cases hb2 : g0.blocks[b]? with
      | none => rw [hb2] at he0; cases he0
      | some blk =>
        rw [hb2] at he0
        have := (List.getElem?_eq_some_iff.mp he0).1
        rw [getD_eq_of_getElem? hb2]
        exact this
    have hdone : (b, j) ∈ done2 := (hchar (b, j)).mpr ⟨hbN, hjN⟩
    obtain ⟨s, hslook, hedge⟩ :=
      hinv.processedBranch b j e0 hdone he0 hbr hundef
    obtain ⟨_, bid, gs, _, hsym, hgots, hblk⟩ := hinv.stubMap _ _ hslook
    obtain ⟨_, gbid, _, hgsym, hgblk⟩ := hinv.gotMap _ _ hgots
    exact ⟨s, bid, gs, gbid, hedge, hsym, hblk, hgsym, hgblk,
      hinv.stubSectionPresent _ _ hslook⟩
  · intro bid1 bid2 gs1 gs2 gbid1 gbid2 t h1 hg1 hgb1 h2 hg2 hgb2
    obtain ⟨t1, s1, hst1, hsym1, hgot1⟩ := stubBlock_lookup hPre hinv h1
    obtain ⟨t2, s2, hst2, hsym2, hgot2⟩ := stubBlock_lookup hPre hinv h2
    obtain ⟨_, gbid1', _, hgsym1', hgblk1'⟩ := hinv.gotMap _ _ hgot1
    obtain ⟨_, gbid2', _, hgsym2', hgblk2'⟩ := hinv.gotMap _ _ hgot2
    rw [hg1] at hgsym1'
    have hgb1e : gbid1' = gbid1 := by
      cases hgsym1'
      rfl
    subst hgb1e
    rw [hgb1] at hgblk1'
    have ht1 : t1 = t := gotEntryBlockFor_inj (Option.some.inj hgblk1').symm
    rw [hg2] at hgsym2'
    have hgb2e : gbid2' = gbid2 := by
      cases hgsym2'
      rfl
    subst hgb2e
    rw [hgb2] at hgblk2'
    have ht2 : t2 = t := gotEntryBlockFor_inj (Option.some.inj hgblk2').symm
    subst ht1
    subst ht2
    rw [hst1] at hst2
    cases hst2
    rw [hsym1] at hsym2
    cases hsym2
    rfl
  · intro b hbmem e hemem hkind
    obtain ⟨bidx, hbidx, hbeq⟩ := List.getElem_of_mem hbmem
    obtain ⟨jidx, hjidx, hjeq⟩ := List.getElem_of_mem hemem
    have hblk : (runGOTAndStubs g0).g.blocks[bidx]? = some b := by
      rw [List.getElem?_eq_getElem hbidx, hbeq]
    have hej : b.edges[jidx]? = some e := by
      rw [List.getElem?_eq_getElem hjidx, hjeq]
    rcases final_edge_classify hchar hinv hblk hej with
      ⟨_, ⟨t, h3⟩ | ⟨gs, h3⟩⟩ | ⟨hbidN, e0, he0, hcase⟩
    · subst h3
      have : e = ⟨Pointer64, 0, t, 0⟩ := by
        simpa [gotEntryBlockFor, NullGOTEntryContent] using hemem
      rw [this] at hkind
      cases hkind
    · subst h3
      have : e = ⟨LDRLiteral19, 0, gs, 0⟩ := by
        simpa [stubBlockFor, StubContent] using hemem
      rw [this] at hkind
      cases hkind
    · rcases hcase with ⟨hg, s, _, heq, _⟩ | ⟨_, s, bid2, heq, hsym⟩ |
        ⟨_, himp, heq⟩
      · rw [heq] at hkind
        exact absurd hkind (fixGOTEdge_kind_ne_branch hg _)
      · rw [heq]
        unfold symIsDefined
        rw [getD_eq_of_getElem? hsym]
        rfl
      · subst heq
        have htN : e.target < g0.symbols.length := by
          have hb0 : ∃ blk0, g0.blocks[bidx]? = some blk0 ∧
              blk0.edges[jidx]? = some e := by
            unfold edgeAt at he0
            cases hb2 : g0.blocks[bidx]? with
            | none => rw [hb2] at he0; cases he0
            | some blk0 =>
              rw [hb2] at he0
              exact ⟨blk0, rfl, he0⟩
          obtain ⟨blk0, hblk0, hej0⟩ := hb0
          exact hPre.2.2 blk0 (List.getElem?_mem hblk0) e
            (List.getElem?_mem hej0)
        rw [symIsDefined_stable hinv htN]
        exact himp hkind

/-- A small concrete graph exercising the GOT-and-stubs pass: one text
block with a `GOTPage21` edge, a `Branch26` edge and a `PointerToGOT`
edge, all targeting one external (undefined) symbol. -/
def exG : LinkGraph :=
  ⟨[⟨"__text", 0x1000, 4, [0, 0, 0, 0, 0, 0, 0, 0, 0, 0, 0, 0],
      [⟨GOTPage21, 0, 0, 0⟩, ⟨Branch26, 4, 0, 0⟩, ⟨PointerToGOT, 8, 0, 0⟩]⟩],
   [⟨none, 0, 0, false, false⟩],
   [("__text", 5)]⟩

theorem got_and_stubs_got_correct_witness : PassPre exG ∧ GotPassPost exG :=
  ⟨by decide, got_and_stubs_got_correct exG (by decide)⟩

theorem got_and_stubs_stub_correct_witness : PassPre exG ∧ StubPassPost exG :=
  ⟨by decide, got_and_stubs_stub_correct exG (by decide)⟩

end MachOArm64
